import Mathlib

/-!
Verification development for the EGASA data-mart ETL normalization engine.

This file gives a shallow embedding, in Lean 4, of the normalization,
reconciliation, merge, header-detection, date-extraction and validation
routines of the repository (src/etl/utils_cleaning.py, src/etl/utils_io.py,
src/etl/pipelines/produccion.py, src/etl/pipelines/hidrologia.py,
src/etl/pipelines/facturacion.py, src/pandera/__init__.py,
src/etl/schemas.py, src/etl/config.py), together with theorems settling the
specification claims about those routines.

Modelling conventions used throughout:
* Python strings are Lean String / List Char; machine floats that only ever
  hold exact tabular quantities are modelled as Rat; a pandas missing value
  (NaN/None) is Option.none.
* Spreadsheet cells are a tagged variant (text / integer / blank), the
  repertoire actually exercised by the repository's sources and tests.
* pandas sort_values on several key columns uses numpy lexsort, which is
  stable; it is modelled by a stable insertion sort.
* pandas drop_duplicates with its default keep="first" is modelled by
  dedupFirst below.
-/

namespace Egasa

set_option maxRecDepth 40000
set_option maxHeartbeats 2000000

/- ===================================================================
   Character-level helpers shared by the embeddings
   =================================================================== -/

/-- ASCII alphanumeric test; coincides with Python str.isalnum on the ASCII
range (the only range reaching the call sites embedded here). -/
def isAsciiAlnum (c : Char) : Bool :=
  c.isDigit || c.isUpper || c.isLower

/-- ASCII uppercase conversion of one character, as Python str.upper acts on
ASCII input. -/
def upChar (c : Char) : Char :=
  if c.isLower then Char.ofNat (c.toNat - 32) else c

/-- Whitespace test used by Python str.split() and str.strip(); after the
ascii-ignore step only ASCII whitespace can occur. -/
def isPySpace (c : Char) : Bool :=
  c = ' ' || c = '\t' || c = '\n' || c = '\x0b' || c = '\x0c' || c = '\r'

/-- Splitter behind Python str.split() with no argument: maximal runs of
non-whitespace characters, discarding empty pieces. The first argument is
the reversed current word being accumulated. -/
def wordsAux (cur : List Char) : List Char → List (List Char)
  | [] => if cur = [] then [] else [cur.reverse]
  | c :: cs =>
    if isPySpace c then
      if cur = [] then wordsAux [] cs else cur.reverse :: wordsAux [] cs
    else wordsAux (c :: cur) cs

/-- Python str.split() with no arguments. -/
def pySplit (l : List Char) : List (List Char) :=
  wordsAux [] l

/-- Python " ".join on a list of character lists. -/
def joinSp : List (List Char) → List Char
  | [] => []
  | [w] => w
  | w :: ws => w ++ ' ' :: joinSp ws

/- ===================================================================
   normalize_text (src/etl/utils_cleaning.py lines 20-25)
   =================================================================== -/

/-- Embedding of normalize_text from src/etl/utils_cleaning.py,
parameterised by the NFKD normalization step: the Python line
unicodedata.normalize("NFKD", value).encode("ascii", "ignore").decode()
is modelled as nfkd followed by dropping every non-ASCII character.
Then every non-alphanumeric character is replaced by a space, the string is
uppercased, and whitespace runs are collapsed by split + single-space join,
exactly as in the source. -/
def normalize_text_with (nfkd : String → String) (s : String) : String :=
  let ascii := (nfkd s).data.filter (fun c => c.toNat ≤ 127)
  let mapped := ascii.map (fun c => if isAsciiAlnum c then c else ' ')
  let upped := mapped.map upChar
  String.mk (joinSp (pySplit upped))

/-- Per-character NFKD decomposition covering the repository's character
repertoire: ASCII characters decompose to themselves (true of NFKD on all of
ASCII), the accented Spanish letters decompose into base letter plus
combining mark, and any other character is left alone (it is discarded by
the ascii-ignore step either way). -/
def nfkdChar (c : Char) : List Char :=
  if c.toNat ≤ 127 then [c]
  else if c = 'Á' then ['A', '́']
  else if c = 'É' then ['E', '́']
  else if c = 'Í' then ['I', '́']
  else if c = 'Ó' then ['O', '́']
  else if c = 'Ú' then ['U', '́']
  else if c = 'á' then ['a', '́']
  else if c = 'é' then ['e', '́']
  else if c = 'í' then ['i', '́']
  else if c = 'ó' then ['o', '́']
  else if c = 'ú' then ['u', '́']
  else if c = 'Ñ' then ['N', '̃']
  else if c = 'ñ' then ['n', '̃']
  else if c = 'Ü' then ['U', '̈']
  else if c = 'ü' then ['u', '̈']
  else [c]

/-- Concrete NFKD model assembled from nfkdChar. -/
def nfkdDefault (s : String) : String :=
  String.mk ((s.data.map nfkdChar).flatten)

/-- normalize_text of src/etl/utils_cleaning.py with the concrete NFKD
model. -/
def normalize_text (s : String) : String :=
  normalize_text_with nfkdDefault s

/-- Composite per-character action of the alnum-replace and uppercase stages
of normalize_text. -/
def gStep (c : Char) : Char :=
  upChar (if isAsciiAlnum c then c else ' ')

lemma gStep_ascii_facts :
    ∀ n : Nat, n < 128 →
      (gStep (Char.ofNat n)).toNat ≤ 127 ∧
        gStep (gStep (Char.ofNat n)) = gStep (Char.ofNat n) := by decide

lemma gStep_facts {c : Char} (hc : c.toNat ≤ 127) :
    (gStep c).toNat ≤ 127 ∧ gStep (gStep c) = gStep c := by
  have h := gStep_ascii_facts c.toNat (Nat.lt_of_le_of_lt hc (by norm_num))
  rwa [Char.ofNat_toNat] at h

lemma map_self_of_mem {α : Type} (f : α → α) :
    ∀ l : List α, (∀ x ∈ l, f x = x) → l.map f = l := by
  intro l
  induction l with
  | nil => intro _; rfl
  | cons a t ih =>
    intro h
    simp only [List.map_cons, h a (by simp)]
    rw [ih fun x hx => h x (by simp [hx])]

lemma wordsAux_mem (l : List Char) :
    ∀ cur : List Char, (∀ c ∈ cur, isPySpace c = false) →
      ∀ w ∈ wordsAux cur l,
        w ≠ [] ∧ ∀ c ∈ w, isPySpace c = false ∧ (c ∈ cur ∨ c ∈ l) := by
  induction l with
  | nil =>
    intro cur hcur w hw
    by_cases hc : cur = []
    · subst hc; simp [wordsAux] at hw
    · simp only [wordsAux, if_neg hc, List.mem_singleton] at hw
      subst hw
      refine ⟨by simpa using hc, ?_⟩
      intro c hcw
      rw [List.mem_reverse] at hcw
      exact ⟨hcur c hcw, Or.inl hcw⟩
  | cons a t ih =>
    intro cur hcur w hw
    rw [wordsAux] at hw
    by_cases ha : isPySpace a = true
    · rw [if_pos ha] at hw
      by_cases hc : cur = []
      · rw [if_pos hc] at hw
        obtain ⟨h1, h2⟩ := ih [] (by simp) w hw
        refine ⟨h1, fun c hcw => ?_⟩
        obtain ⟨hs, hm⟩ := h2 c hcw
        rcases hm with hm | hm
        · simp at hm
        · exact ⟨hs, Or.inr (by simp [hm])⟩
      · rw [if_neg hc] at hw
        rcases List.mem_cons.mp hw with hw | hw
        · subst hw
          refine ⟨by simpa using hc, ?_⟩
          intro c hcw
          rw [List.mem_reverse] at hcw
          exact ⟨hcur c hcw, Or.inl hcw⟩
        · obtain ⟨h1, h2⟩ := ih [] (by simp) w hw
          refine ⟨h1, fun c hcw => ?_⟩
          obtain ⟨hs, hm⟩ := h2 c hcw
          rcases hm with hm | hm
          · simp at hm
          · exact ⟨hs, Or.inr (by simp [hm])⟩
    · rw [if_neg ha] at hw
      have ha' : isPySpace a = false := by
        cases h : isPySpace a
        · rfl
        · exact absurd h ha
      obtain ⟨h1, h2⟩ := ih (a :: cur)
        (by
          intro c hc
          rcases List.mem_cons.mp hc with hc | hc
          · subst hc; exact ha'
          · exact hcur c hc) w hw
      refine ⟨h1, fun c hcw => ?_⟩
      obtain ⟨hs, hm⟩ := h2 c hcw
      rcases hm with hm | hm
      · rcases List.mem_cons.mp hm with hm | hm
        · subst hm; exact ⟨hs, Or.inr (by simp)⟩
        · exact ⟨hs, Or.inl hm⟩
      · exact ⟨hs, Or.inr (by simp [hm])⟩

lemma wordsAux_append (w : List Char) :
    ∀ cur rest : List Char, (∀ c ∈ w, isPySpace c = false) →
      wordsAux cur (w ++ rest) = wordsAux (w.reverse ++ cur) rest := by
  induction w with
  | nil => intro cur rest _; simp
  | cons a t ih =>
    intro cur rest hw
    have ha : isPySpace a = false := hw a (by simp)
    rw [List.cons_append, wordsAux, if_neg (by simp [ha]),
      ih (a :: cur) rest fun c hc => hw c (by simp [hc])]
    congr 1
    simp

lemma pySplit_joinSp :
    ∀ ws : List (List Char),
      (∀ w ∈ ws, w ≠ [] ∧ ∀ c ∈ w, isPySpace c = false) →
      pySplit (joinSp ws) = ws := by
  intro ws
  induction ws with
  | nil => intro _; rfl
  | cons w ws ih =>
    intro h
    have hw := h w (by simp)
    cases ws with
    | nil =>
      show pySplit (joinSp [w]) = [w]
      have h1 : joinSp [w] = w := rfl
      rw [h1]
      unfold pySplit
      have h2 := wordsAux_append w [] [] hw.2
      simp only [List.append_nil] at h2
      rw [h2, wordsAux, if_neg (by simpa using hw.1)]
      simp
    | cons w2 ws2 =>
      have h1 : joinSp (w :: w2 :: ws2) = w ++ ' ' :: joinSp (w2 :: ws2) := rfl
      unfold pySplit
      rw [h1, wordsAux_append w [] _ hw.2, wordsAux,
        if_pos (show isPySpace ' ' = true by decide),
        if_neg (by simpa using hw.1)]
      simp only [List.append_nil, List.reverse_reverse]
      rw [show wordsAux [] (joinSp (w2 :: ws2)) = pySplit (joinSp (w2 :: ws2)) from rfl,
        ih fun x hx => h x (by simp [hx])]

lemma mem_joinSp {c : Char} :
    ∀ ws : List (List Char), c ∈ joinSp ws → c = ' ' ∨ ∃ w ∈ ws, c ∈ w := by
  intro ws
  induction ws with
  | nil => intro h; simp [joinSp] at h
  | cons w ws ih =>
    intro h
    cases ws with
    | nil => exact Or.inr ⟨w, by simp, h⟩
    | cons w2 ws2 =>
      rw [show joinSp (w :: w2 :: ws2) = w ++ ' ' :: joinSp (w2 :: ws2) from rfl] at h
      rcases List.mem_append.mp h with h1 | h2
      · exact Or.inr ⟨w, by simp, h1⟩
      · rcases List.mem_cons.mp h2 with h3 | h4
        · exact Or.inl h3
        · rcases ih h4 with h5 | ⟨w3, hw3, hc3⟩
          · exact Or.inl h5
          · exact Or.inr ⟨w3, by simp [hw3], hc3⟩

lemma normalize_text_with_eq (nfkd : String → String) (t : String) :
    normalize_text_with nfkd t =
      String.mk (joinSp (pySplit
        (((nfkd t).data.filter (fun c => c.toNat ≤ 127)).map gStep))) := by
  simp only [normalize_text_with, List.map_map]
  rfl

lemma nfkdDefault_ascii_id :
    ∀ t : String, (∀ c ∈ t.data, c.toNat ≤ 127) → nfkdDefault t = t := by
  intro t h
  cases t with
  | mk l =>
    simp only [nfkdDefault]
    congr 1
    induction l with
    | nil => rfl
    | cons a u ih =>
      have ha : a.toNat ≤ 127 := h a (by simp [String.data])
      simp only [List.map_cons, List.flatten_cons, nfkdChar, if_pos ha,
        List.singleton_append]
      rw [ih]
      intro c hc
      exact h c (by simp [String.data, hc])

/-- C10: normalize_text is idempotent. The theorem is stated for every NFKD
model that acts as the identity on pure-ASCII strings, a property of Unicode
NFKD: normalizing an already-normalized string never changes it. -/
theorem C10_normalize_text_idempotent
    (nfkd : String → String)
    (hid : ∀ t : String, (∀ c ∈ t.data, c.toNat ≤ 127) → nfkd t = t)
    (s : String) :
    normalize_text_with nfkd (normalize_text_with nfkd s) =
      normalize_text_with nfkd s := by
  rw [normalize_text_with_eq nfkd s]
  set upped := (((nfkd s).data.filter (fun c => c.toNat ≤ 127)).map gStep)
    with hupped
  set ws := pySplit upped with hws
  have hupchars : ∀ c ∈ upped, c.toNat ≤ 127 ∧ gStep c = c := by
    intro c hc
    rw [hupped] at hc
    obtain ⟨x, hx, hcx⟩ := List.mem_map.mp hc
    have hxa : x.toNat ≤ 127 := by
      have := List.mem_filter.mp hx
      simpa using this.2
    obtain ⟨h1, h2⟩ := gStep_facts hxa
    subst hcx
    exact ⟨h1, h2⟩
  have hwords := wordsAux_mem upped [] (by simp)
  have hjoin : ∀ c ∈ joinSp ws, c.toNat ≤ 127 ∧ gStep c = c := by
    intro c hc
    rcases mem_joinSp ws hc with hc | ⟨w, hw, hcw⟩
    · subst hc; exact ⟨by decide, by decide⟩
    · obtain ⟨_, h2⟩ := hwords w hw
      obtain ⟨_, hm⟩ := h2 c hcw
      rcases hm with hm | hm
      · simp at hm
      · exact hupchars c hm
  rw [normalize_text_with_eq nfkd (String.mk (joinSp ws))]
  have hdata : (String.mk (joinSp ws)).data = joinSp ws := rfl
  have hascii : ∀ c ∈ (String.mk (joinSp ws)).data, c.toNat ≤ 127 := by
    rw [hdata]; intro c hc; exact (hjoin c hc).1
  rw [hid _ hascii, hdata,
    List.filter_eq_self.mpr (by intro c hc; simpa using (hjoin c hc).1),
    map_self_of_mem gStep _ (fun c hc => (hjoin c hc).2),
    pySplit_joinSp ws ?_]
  intro w hw
  obtain ⟨h1, h2⟩ := hwords w hw
  exact ⟨h1, fun c hc => (h2 c hc).1⟩

/-- Witness for C10: the theorem applied at the concrete NFKD model and a
concrete accented string. -/
theorem C10_witness :
    nfkdDefault "MODULO A 1 PISO2" = "MODULO A 1 PISO2" ∧
      normalize_text_with nfkdDefault
          (normalize_text_with nfkdDefault " Módulo A-1  piso2 ") =
        normalize_text_with nfkdDefault " Módulo A-1  piso2 " :=
  ⟨by decide, C10_normalize_text_idempotent nfkdDefault nfkdDefault_ascii_id _⟩

/- ===================================================================
   Spreadsheet cells and small Python string helpers
   =================================================================== -/

/-- Spreadsheet cell values as read by pandas: text, integer numbers, or a
missing value (NaN). This is the repertoire exercised by the repository's
sources and its synthetic test workbooks. -/
inductive Cell where
  | str (s : String)
  | int (n : Int)
  | blank
  deriving DecidableEq, Repr

/-- pd.notna on a cell. -/
def cellNotna : Cell → Bool
  | Cell.blank => false
  | _ => true

/-- Python str(v) on a cell value (str(nan) is the text "nan"). -/
def cellToStr : Cell → String
  | Cell.str s => s
  | Cell.int n => toString n
  | Cell.blank => "nan"

/-- Lowercasing of one character: ASCII plus the accented Spanish letters
appearing in this repository's data, as Python str.lower acts on them. -/
def lowChar (c : Char) : Char :=
  if c.isUpper then Char.ofNat (c.toNat + 32)
  else if c = 'Á' then 'á'
  else if c = 'É' then 'é'
  else if c = 'Í' then 'í'
  else if c = 'Ó' then 'ó'
  else if c = 'Ú' then 'ú'
  else if c = 'Ñ' then 'ñ'
  else if c = 'Ü' then 'ü'
  else c

/-- Python str.lower for the embedded repertoire. -/
def pyLower (s : String) : String :=
  String.mk (s.data.map lowChar)

/-- Python str.strip() with no arguments: remove leading and trailing
whitespace. -/
def pyStrip (s : String) : String :=
  String.mk (((s.data.dropWhile (fun c => isPySpace c)).reverse.dropWhile
    (fun c => isPySpace c)).reverse)

/-- Yes when the first list is an initial segment of the second. -/
def listHasLead (needle hay : List Char) : Bool :=
  match needle, hay with
  | [], _ => true
  | _ :: _, [] => false
  | a :: as, b :: bs => a == b && listHasLead as bs

/-- Lexicographic code-point comparison of character lists: Python string
comparison semantics. -/
def strLtCL : List Char → List Char → Bool
  | [], [] => false
  | [], _ :: _ => true
  | _ :: _, [] => false
  | a :: as, b :: bs =>
    if a.toNat < b.toNat then true
    else if b.toNat < a.toNat then false
    else strLtCL as bs

/-- Python string less-than. -/
def pyStrLt (a b : String) : Bool :=
  strLtCL a.data b.data

/-- Python substring containment (needle in hay) on character lists. -/
def hasSubCL (needle : List Char) : List Char → Bool
  | [] => listHasLead needle []
  | c :: cs => listHasLead needle (c :: cs) || hasSubCL needle cs

/-- Python substring containment on strings. -/
def strIn (needle hay : String) : Bool :=
  hasSubCL needle.data hay.data

/-- Keep the first occurrence of each key, dropping later rows whose key was
already seen; the accumulator holds the keys seen so far. This is pandas
drop_duplicates with its default keep="first". -/
def dedupFirstBy {α κ : Type} [DecidableEq κ] (key : α → κ) :
    List κ → List α → List α
  | _, [] => []
  | seen, x :: xs =>
    if key x ∈ seen then dedupFirstBy key seen xs
    else x :: dedupFirstBy key (key x :: seen) xs

/-- pandas drop_duplicates(subset=key) with keep="first". -/
def dedupFirst {α κ : Type} [DecidableEq κ] (key : α → κ) (l : List α) :
    List α :=
  dedupFirstBy key [] l

/-- Python set(...) of a list of strings, as the list of distinct elements in
first-occurrence order (the order never matters at the use sites, only
membership and cardinality). -/
def setify (l : List String) : List String :=
  dedupFirst id l

/- ===================================================================
   detect_header_row (src/etl/utils_io.py lines 29-56)
   =================================================================== -/

/-- Text values of the non-empty cells of one preview row:
str(v).strip().lower() for the cells with pd.notna(v) and a non-empty
stripped text, as in src/etl/utils_io.py line 45. -/
def rowValues (row : List Cell) : List String :=
  row.filterMap fun c =>
    if cellNotna c then
      let t := pyStrip (cellToStr c)
      if t ≠ "" then some (pyLower t) else none
    else none

/-- Concatenation of the row values with single spaces (line 46). -/
def rowText (row : List Cell) : String :=
  String.mk (joinSp ((rowValues row).map String.data))

/-- The keyword test of line 48: every keyword appears as a substring of some
row value or of the concatenated row text. -/
def rowKwAll (keywordSet : List String) (row : List Cell) : Bool :=
  keywordSet.all fun kw =>
    (rowValues row).any (fun v => strIn kw v) || strIn kw (rowText row)

/-- The expected-columns fallback of lines 51-54: the fraction of the
expected set present verbatim among the row values is at least 0.6
(the float comparison is exact at these magnitudes, so it is stated over
integers: 5 * hits >= 3 * max(size, 1)). -/
def rowExpectedOk (expectedSet : List String) (row : List Cell) : Bool :=
  5 * expectedSet.countP (fun e => decide (e ∈ rowValues row)) ≥
    3 * max expectedSet.length 1

/-- Keyword set construction of line 41: drop falsy entries, strip,
lowercase, and take the set. -/
def keywordSetOf (keywords : List String) : List String :=
  setify ((keywords.filter (fun kw => kw ≠ "")).map
    (fun kw => pyLower (pyStrip kw)))

/-- Expected-column set construction of line 42. -/
def expectedSetOf (expected : List String) : List String :=
  setify (expected.map (fun c => pyLower (pyStrip c)))

/-- Row scan of detect_header_row, carrying the current row index. -/
def detectGo (expectedSet keywordSet : List String) :
    Nat → List (List Cell) → Nat
  | _, [] => 0
  | idx, row :: rows =>
    if !keywordSet.isEmpty && rowKwAll keywordSet row then idx
    else if !expectedSet.isEmpty && rowExpectedOk expectedSet row then idx
    else detectGo expectedSet keywordSet (idx + 1) rows

/-- Embedding of detect_header_row from src/etl/utils_io.py lines 29-56:
scan the preview rows top-down, returning the first row satisfying the
keyword test (or, failing that, the expected-columns ratio test), and 0 when
nothing matches. The function is total: it never raises. -/
def detect_header_row (grid : List (List Cell))
    (expected keywords : List String) : Nat :=
  detectGo (expectedSetOf expected) (keywordSetOf keywords) 0 grid

lemma detectGo_found (kSet : List String) (hk : kSet ≠ []) :
    ∀ (rows : List (List Cell)) (k idx : Nat) (row : List Cell),
      rows[k]? = some row → rowKwAll kSet row = true →
      (∀ rj ∈ rows.take k, rowKwAll kSet rj = false) →
      detectGo [] kSet idx rows = idx + k := by
  intro rows
  induction rows with
  | nil => intro k idx row hget; simp at hget
  | cons r rs ih =>
    intro k idx row hget hrow hpre
    cases k with
    | zero =>
      rw [List.getElem?_cons_zero, Option.some_inj] at hget
      subst hget
      rw [detectGo, if_pos (by simp [hrow, List.isEmpty_iff, hk])]
      omega
    | succ k =>
      rw [List.getElem?_cons_succ] at hget
      have h0 : rowKwAll kSet r = false := hpre r (by simp)
      rw [detectGo, if_neg (by simp [h0]), if_neg (by simp),
        ih k (idx + 1) row hget hrow
          (fun rj hrj => hpre rj (by simp [List.take_succ_cons, hrj]))]
      omega

lemma detectGo_nomatch (kSet : List String) :
    ∀ (rows : List (List Cell)) (idx : Nat),
      (∀ row ∈ rows, rowKwAll kSet row = false) →
      detectGo [] kSet idx rows = 0 := by
  intro rows
  induction rows with
  | nil => intro idx _; rfl
  | cons r rs ih =>
    intro idx h
    rw [detectGo, if_neg (by simp [h r (by simp)]), if_neg (by simp),
      ih (idx + 1) fun row hrow => h row (by simp [hrow])]

/-- C4: for every preview grid and non-empty keyword set, if row k is the
first row (scanning top-down) in which every keyword appears
case-insensitively as a substring among that row's non-empty cell texts or
their concatenation, detect_header_row (called as in the repository, with no
expected columns) returns k; and when no row matches, it returns 0. The
function is total, so it never raises. -/
theorem C4_detect_header_row_first_match (grid : List (List Cell))
    (keywords : List String) :
    (keywordSetOf keywords ≠ [] →
      ∀ (k : Nat) (row : List Cell), grid[k]? = some row →
        rowKwAll (keywordSetOf keywords) row = true →
        (∀ rj ∈ grid.take k, rowKwAll (keywordSetOf keywords) rj = false) →
        detect_header_row grid [] keywords = k) ∧
    ((∀ row ∈ grid, rowKwAll (keywordSetOf keywords) row = false) →
      detect_header_row grid [] keywords = 0) := by
  constructor
  · intro hk k row hget hrow hpre
    show detectGo [] (keywordSetOf keywords) 0 grid = k
    rw [detectGo_found (keywordSetOf keywords) hk grid k 0 row hget hrow hpre]
    omega
  · intro h
    exact detectGo_nomatch (keywordSetOf keywords) grid 0 h

/-- Witness for C4: a grid whose third row is the first holding all of the
produccion keywords, and a grid with no matching row. -/
theorem C4_witness :
    detect_header_row
        [[Cell.str "REPORTE"], [Cell.blank],
          [Cell.str "CENTRAL", Cell.str "Enero", Cell.str "DICIEMBRE"]]
        [] ["central", "enero", "diciembre"] = 2 ∧
      detect_header_row [[Cell.str "X"]] [] ["central", "enero", "diciembre"]
        = 0 :=
  ⟨(C4_detect_header_row_first_match _ _).1 (by decide) 2
      [Cell.str "CENTRAL", Cell.str "Enero", Cell.str "DICIEMBRE"]
      (by decide) (by decide) (by decide),
    (C4_detect_header_row_first_match _ _).2 (by decide)⟩

/- ===================================================================
   Properties of dedupFirst (pandas drop_duplicates, keep="first")
   =================================================================== -/

lemma dedupFirstBy_countP {α κ : Type} [DecidableEq κ] (key : α → κ)
    (c : κ) :
    ∀ (l : List α) (seen : List κ),
      (dedupFirstBy key seen l).countP (fun r => decide (key r = c)) =
        if c ∈ seen then 0 else if c ∈ l.map key then 1 else 0 := by
  intro l
  induction l with
  | nil => intro seen; simp [dedupFirstBy]
  | cons x xs ih =>
    intro seen
    rw [dedupFirstBy]
    by_cases hx : key x ∈ seen
    · rw [if_pos hx, ih seen]
      by_cases hc : c ∈ seen
      · simp [hc]
      · rw [if_neg hc, if_neg hc]
        have hne : c ≠ key x := fun h => hc (h ▸ hx)
        simp [List.map_cons, hne, Ne.symm hne]
    · rw [if_neg hx, List.countP_cons, ih (key x :: seen)]
      by_cases hc : c ∈ seen
      · have hcx : c ≠ key x := fun h => hx (h ▸ hc)
        simp [hc, hcx, Ne.symm hcx]
      · by_cases hck : c = key x
        · subst hck
          simp [hx, hc]
        · simp [hc, hck, Ne.symm hck]

lemma dedupFirstBy_mem {α κ : Type} [DecidableEq κ] (key : α → κ) :
    ∀ (l : List α) (seen : List κ) (r : α),
      r ∈ dedupFirstBy key seen l →
        key r ∉ seen ∧
          l.find? (fun x => decide (key x = key r)) = some r := by
  intro l
  induction l with
  | nil => intro seen r h; simp [dedupFirstBy] at h
  | cons x xs ih =>
    intro seen r h
    rw [dedupFirstBy] at h
    by_cases hx : key x ∈ seen
    · rw [if_pos hx] at h
      obtain ⟨h1, h2⟩ := ih seen r h
      have hne : key x ≠ key r := fun he => h1 (he ▸ hx)
      refine ⟨h1, ?_⟩
      rw [List.find?_cons_of_neg _ (by simp [hne]), h2]
    · rw [if_neg hx] at h
      rcases List.mem_cons.mp h with h | h
      · subst h
        exact ⟨hx, by rw [List.find?_cons_of_pos _ (by simp)]⟩
      · obtain ⟨h1, h2⟩ := ih (key x :: seen) r h
        have hne : key x ≠ key r := fun he => h1 (by simp [he])
        refine ⟨fun hc => h1 (by simp [hc]), ?_⟩
        rw [List.find?_cons_of_neg _ (by simp [hne]), h2]

lemma dedupFirst_countP {α κ : Type} [DecidableEq κ] (key : α → κ)
    (c : κ) (l : List α) :
    (dedupFirst key l).countP (fun r => decide (key r = c)) =
      if c ∈ l.map key then 1 else 0 := by
  rw [dedupFirst, dedupFirstBy_countP key c l []]
  simp

lemma dedupFirst_mem {α κ : Type} [DecidableEq κ] (key : α → κ)
    {l : List α} {r : α} (h : r ∈ dedupFirst key l) :
    l.find? (fun x => decide (key x = key r)) = some r :=
  (dedupFirstBy_mem key l [] r h).2

/- ===================================================================
   15-minute partition rows and the incremental partition merge
   (src/etl/pipelines/produccion.py lines 389-413)
   =================================================================== -/

/-- One normalized 15-minute interval row, as produced by _process_15min:
a parsed timestamp (modelled as minutes on a linear scale), the
canonicalized plant label, the raw header label, the meter/unit label, the
energy in MWh, the reconciled plant id (None when unmapped), and the YYYYMM
period string. -/
structure R15 where
  fecha_hora : Nat
  central : String
  central_raw : String
  unidad : String
  energia_mwh : Rat
  central_id : Option String
  periodo : String
  deriving DecidableEq, Repr

/-- Natural key of a 15-minute partition row: the drop_duplicates subset
["fecha_hora", "central_id", "unidad"] of produccion.py line 406. -/
def r15Key (r : R15) : Nat × Option String × String :=
  (r.fecha_hora, r.central_id, r.unidad)

/-- Ordering on the reconciled-id column: pandas sort_values places missing
values last. -/
def optStrLtB : Option String → Option String → Bool
  | some x, some y => pyStrLt x y
  | some _, none => true
  | none, _ => false

/-- Lexicographic sort key of produccion.py line 407:
["fecha_hora", "central_id", "unidad"]. -/
def r15LeB (a b : R15) : Bool :=
  decide (a.fecha_hora < b.fecha_hora) ||
    (a.fecha_hora == b.fecha_hora &&
      (optStrLtB a.central_id b.central_id ||
        (a.central_id == b.central_id &&
          (pyStrLt a.unidad b.unidad || a.unidad == b.unidad))))

/-- Embedding of the partition merge of run_produccion, produccion.py lines
397-410: concatenate the existing partition rows (read from disk) with the
newly parsed rows, drop duplicates on the natural key with pandas' default
keep="first", then sort by timestamp, plant id and unit (a multi-column
pandas sort, which is stable). The column-union/fill step of lines 398-400
is the identity here because both sides carry the same fixed columns. -/
def mergePartition (prev new : List R15) : List R15 :=
  List.insertionSort (fun a b => r15LeB a b = true)
    (dedupFirst r15Key (prev ++ new))

/-- C1 counterexample: an existing partition row and a new-batch row share
the natural key (timestamp 100, plant CH1, unit U1) but differ in the energy
value (5 on disk, 7 in the corrected batch). The merge keeps the on-disk
row, so the merged values are those of the existing partition, not of the
new batch as the claim states. -/
theorem C1_counterexample :
    mergePartition
        [⟨100, "CHARCANI I", "raw", "U1", 5, some "CH1", "202501"⟩]
        [⟨100, "CHARCANI I", "raw", "U1", 7, some "CH1", "202501"⟩] =
      [⟨100, "CHARCANI I", "raw", "U1", 5, some "CH1", "202501"⟩] ∧
      ((5 : Rat) ≠ 7) := by
  decide

/-- C1 amended: the partition merge resolves duplicates on the natural key
(fecha_hora, central_id, unidad) by "existing row overwrites new": every key
present in existing ++ new appears in exactly one merged row, and that row
is the first occurrence in existing ++ new — the existing partition's row
whenever the key was already on disk. -/
theorem C1_merge_dedup_keeps_existing (prev new : List R15)
    (k : Nat × Option String × String)
    (hk : ∃ r ∈ prev ++ new, r15Key r = k) :
    (mergePartition prev new).countP (fun r => decide (r15Key r = k)) = 1 ∧
      ∀ r ∈ mergePartition prev new, r15Key r = k →
        (prev ++ new).find? (fun x => decide (r15Key x = k)) = some r := by
  have hperm :
      List.Perm (mergePartition prev new)
        (dedupFirst r15Key (prev ++ new)) :=
    List.perm_insertionSort _ _
  constructor
  · rw [hperm.countP_eq, dedupFirst_countP]
    have hmem : k ∈ (prev ++ new).map r15Key := by
      obtain ⟨r, hr, hkr⟩ := hk
      exact List.mem_map.mpr ⟨r, hr, hkr⟩
    rw [if_pos hmem]
  · intro r hr hkr
    have hmem : r ∈ dedupFirst r15Key (prev ++ new) := hperm.mem_iff.mp hr
    have hfind := dedupFirst_mem r15Key hmem
    rwa [hkr] at hfind

/-- Witness for the amended C1 at the concrete one-row partitions. -/
theorem C1_witness :
    (mergePartition
          [⟨100, "CHARCANI I", "raw", "U1", 5, some "CH1", "202501"⟩]
          [⟨100, "CHARCANI I", "raw", "U1", 7, some "CH1", "202501"⟩]).countP
        (fun r => decide (r15Key r = (100, some "CH1", "U1"))) = 1 ∧
      ∀ r ∈ mergePartition
          [⟨100, "CHARCANI I", "raw", "U1", 5, some "CH1", "202501"⟩]
          [⟨100, "CHARCANI I", "raw", "U1", 7, some "CH1", "202501"⟩],
        r15Key r = (100, some "CH1", "U1") →
          (([⟨100, "CHARCANI I", "raw", "U1", 5, some "CH1", "202501"⟩] ++
              [⟨100, "CHARCANI I", "raw", "U1", 7, some "CH1", "202501"⟩]
              : List R15).find?
            (fun x => decide (r15Key x = (100, some "CH1", "U1")))) = some r :=
  C1_merge_dedup_keeps_existing _ _ _ (by decide)

/- ===================================================================
   difflib: SequenceMatcher.ratio and get_close_matches(n=1, cutoff=0.6)
   =================================================================== -/

/-- Length of the common initial run of two character lists. -/
def commonLead : List Char → List Char → Nat
  | a :: as, b :: bs => if a = b then commonLead as bs + 1 else 0
  | _, _ => 0

/-- difflib SequenceMatcher.find_longest_match without junk (the strings at
the call sites are far below the autojunk threshold): the longest matching
block, with ties resolved towards the smallest start in the first sequence
and then the smallest start in the second — realised by an ascending scan
keeping the first strictly larger match. Returns (i, j, k). -/
def bestMatch (x y : List Char) : Nat × Nat × Nat :=
  let cands := (List.range x.length).flatMap fun i =>
    (List.range y.length).map fun j =>
      (i, j, commonLead (x.drop i) (y.drop j))
  cands.foldl (fun best c => if c.2.2 > best.2.2 then c else best) (0, 0, 0)

/-- Total size of the matching blocks of SequenceMatcher
(get_matching_blocks): recursively take the longest match and recurse on
the pieces to its left and to its right. The fuel argument dominates the
recursion depth; matchTotal is always called with enough fuel since every
recursive call strictly shrinks the combined length. -/
def matchTotal : Nat → List Char → List Char → Nat
  | 0, _, _ => 0
  | fuel + 1, x, y =>
    let b := bestMatch x y
    if b.2.2 = 0 then 0
    else
      matchTotal fuel (x.take b.1) (y.take b.2.1) + b.2.2 +
        matchTotal fuel (x.drop (b.1 + b.2.2)) (y.drop (b.2.1 + b.2.2))

/-- difflib SequenceMatcher.ratio as an exact fraction: numerator 2*M and
denominator len(a) + len(b), and the fraction 1/1 when both are empty. The
Python float comparisons against the 0.6 cutoff and between candidate
ratios are exact at the string lengths reachable here, so they are stated
by cross-multiplication over the naturals. -/
def ratioPair (x y : List Char) : Nat × Nat :=
  if x.length + y.length = 0 then (1, 1)
  else (2 * matchTotal (x.length + y.length + 1) x y, x.length + y.length)

/-- ratio >= 0.6, by cross-multiplication. -/
def ratioGeCutoff (p : Nat × Nat) : Bool :=
  3 * p.2 ≤ 5 * p.1

/-- Strict comparison of two exact ratios. -/
def ratioLt (a b : Nat × Nat) : Bool :=
  a.1 * b.2 < b.1 * a.2

/-- Equality of two exact ratios. -/
def ratioEquiv (a b : Nat × Nat) : Bool :=
  a.1 * b.2 = b.1 * a.2

/-- Selection step of heapq.nlargest(1) over (ratio, candidate) pairs
compared lexicographically, keeping the earliest element on full ties. -/
def nlargestPick (best : Option ((Nat × Nat) × String))
    (c : (Nat × Nat) × String) : Option ((Nat × Nat) × String) :=
  match best with
  | none => some c
  | some b =>
    if ratioLt b.1 c.1 || (ratioEquiv b.1 c.1 && pyStrLt b.2 c.2) then some c
    else some b

/-- difflib get_close_matches(word, possibilities, n=1, cutoff=0.6): score
every candidate (the quick-ratio pre-filters are upper bounds of ratio, so
the filter is exactly ratio >= cutoff), then take the largest (ratio,
candidate) pair. -/
def getCloseMatches1 (word : String) (possibilities : List String) :
    List String :=
  let scored := possibilities.filterMap fun x =>
    let r := ratioPair x.data word.data
    if ratioGeCutoff r then some (r, x) else none
  match scored.foldl nlargestPick none with
  | none => []
  | some b => [b.2]

/- ===================================================================
   Python dict / int / float helpers
   =================================================================== -/

/-- Insert into a Python dict modelled as an association list in insertion
order: an existing key is updated in place, a new key is appended. -/
def dictInsert (d : List (String × String)) (k v : String) :
    List (String × String) :=
  if d.any (fun p => p.1 = k) then
    d.map (fun p => if p.1 = k then (k, v) else p)
  else d ++ [(k, v)]

/-- Python dict(zip(keys, values)) from a list of pairs: later duplicate
keys overwrite earlier values, key order is first-insertion order. -/
def buildDict (l : List (String × String)) : List (String × String) :=
  l.foldl (fun d p => dictInsert d p.1 p.2) []

/-- Python dict.get. -/
def dictGet (d : List (String × String)) (k : String) : Option String :=
  (d.find? (fun p => p.1 = k)).map Prod.snd

/-- Numeric value of a digit run. -/
def digitsVal (l : List Char) : Nat :=
  l.foldl (fun acc c => acc * 10 + (c.toNat - 48)) 0

/-- Python int(s) on an already stripped string: an optional sign followed
by at least one digit. -/
def pyInt (s : String) : Option Int :=
  match (pyStrip s).data with
  | [] => none
  | '-' :: rest =>
    if rest ≠ [] ∧ rest.all Char.isDigit then some (-(digitsVal rest : Int))
    else none
  | '+' :: rest =>
    if rest ≠ [] ∧ rest.all Char.isDigit then some (digitsVal rest : Int)
    else none
  | l =>
    if l.all Char.isDigit then some (digitsVal l : Int) else none

/-- Unsigned decimal literal: digits with an optional fractional part, at
least one digit overall (the grammar accepted for this repository's cells;
rationals are built with mkRat, which normalizes). -/
def parseUnsigned (l : List Char) : Option Rat :=
  let d1 := l.takeWhile Char.isDigit
  let rest := l.dropWhile Char.isDigit
  match rest with
  | [] => if d1 = [] then none else some (mkRat (digitsVal d1) 1)
  | '.' :: frac =>
    if frac.all Char.isDigit ∧ (d1 ≠ [] ∨ frac ≠ []) then
      some (mkRat (digitsVal d1 * 10 ^ frac.length + digitsVal frac)
        (10 ^ frac.length))
    else none
  | _ => none

/-- pandas to_numeric(errors="coerce") on a text value: parse a signed
decimal literal, None (NaN) otherwise. -/
def pyToNumeric (s : String) : Option Rat :=
  match (pyStrip s).data with
  | '-' :: rest => (parseUnsigned rest).map Neg.neg
  | '+' :: rest => parseUnsigned rest
  | l => parseUnsigned l

/-- pandas to_numeric(errors="coerce") on a cell: numbers pass through,
missing stays missing, text is parsed. -/
def cellToNumeric : Cell → Option Rat
  | Cell.int n => some (mkRat n 1)
  | Cell.blank => none
  | Cell.str s => pyToNumeric s

/-- Exact division of a cell quantity by a positive integer constant
(the kWh -> MWh conversions), via mkRat. -/
def qDivNat (q : Rat) (n : Nat) : Rat :=
  mkRat q.num (q.den * n)

/-- Uppercasing of one character: ASCII plus the accented Spanish letters of
this repository, as Python str.upper acts on them. -/
def upCharFull (c : Char) : Char :=
  if c.isLower then Char.ofNat (c.toNat - 32)
  else if c = 'á' then 'Á'
  else if c = 'é' then 'É'
  else if c = 'í' then 'Í'
  else if c = 'ó' then 'Ó'
  else if c = 'ú' then 'Ú'
  else if c = 'ñ' then 'Ñ'
  else if c = 'ü' then 'Ü'
  else c

/-- Python str.upper for the embedded repertoire. -/
def pyUpper (s : String) : String :=
  String.mk (s.data.map upCharFull)

/- ===================================================================
   map_central_id (src/etl/utils_cleaning.py lines 40-68)
   =================================================================== -/

/-- The fuzzy fallback of the inner _match closure of map_central_id:
top-1 get_close_matches at cutoff 0.6 over the known normalized names,
mapped back through the reference dict. -/
def matchCentralFuzzy (cmap : List (String × String)) (known : List String)
    (name : String) : Option String :=
  match getCloseMatches1 name known with
  | [] => none
  | c :: _ => dictGet cmap c

/-- The inner _match closure of map_central_id without its cache: exact
lookup of the normalized name first (a falsy — empty — id falls through,
as Python "if direct" does), then the fuzzy fallback. -/
def matchCentral (cmap : List (String × String)) (known : List String)
    (name : String) : Option String :=
  match dictGet cmap name with
  | some d => if d = "" then matchCentralFuzzy cmap known name else some d
  | none => matchCentralFuzzy cmap known name

/-- The _match closure with its cache: a hit returns the cached value, a
miss computes _match and records it. -/
def matchCentralCached (cmap : List (String × String)) (known : List String)
    (cache : List (String × Option String)) (name : String) :
    Option String × List (String × Option String) :=
  match cache.find? (fun p => p.1 = name) with
  | some p => (p.2, cache)
  | none =>
    let r := matchCentral cmap known name
    (r, (name, r) :: cache)

/-- Series.map(_match) over a column of normalized labels: elementwise,
left to right, threading the closure's cache. -/
def mapMatchRun (cmap : List (String × String)) (known : List String)
    (labels : List String) : List (Option String) :=
  (labels.foldl
    (fun (acc : List (Option String) × List (String × Option String)) nm =>
      let st := matchCentralCached cmap known acc.2 nm
      (acc.1 ++ [st.1], st.2))
    ([], [])).1

/-- load_centrales_reference (utils_cleaning.py lines 28-37) restricted to
the columns that matter downstream: pair each central_id with the
normalized central_nombre. -/
def loadCentralesReference (ref : List (String × String)) :
    List (String × String) :=
  ref.map (fun p => (p.1, normalize_text p.2))

/-- Embedding of map_central_id (utils_cleaning.py lines 40-68) at column
level: given the reference rows (central_id, central_nombre_norm) and the
source-column cells, produce the central_id column. An empty frame or
reference yields all-None; otherwise build the dict
zip(central_nombre_norm, central_id), normalize each label, and map the
cached _match over the column. -/
def map_central_id (centrales : List (String × String)) (labels : List Cell) :
    List (Option String) :=
  if labels = [] ∨ centrales = [] then labels.map fun _ => none
  else
    let cmap := buildDict (centrales.map (fun p => (p.2, p.1)))
    let known := cmap.map Prod.fst
    mapMatchRun cmap known (labels.map (fun c => normalize_text (cellToStr c)))

/-- CENTRALES_DEFAULT of src/etl/pipelines/produccion.py lines 21-31,
restricted to (central_id, central_nombre). -/
def centralesDefault : List (String × String) :=
  [("CH1", "CHARCANI I"), ("CH2", "CHARCANI II"), ("CH3", "CHARCANI III"),
   ("CH4", "CHARCANI IV"), ("CH5", "CHARCANI V"), ("CH6", "CHARCANI VI"),
   ("CT1", "C.T. CHILINA"), ("CT2", "C.T. PISCO"), ("CT3", "C.T. MOLLENDO")]

/- ===================================================================
   _process_historico (src/etl/pipelines/produccion.py lines 58-140)
   =================================================================== -/

/-- month_map of _process_historico (produccion.py lines 67-81), in source
order, including the SETIEMBRE/SEPTIEMBRE spelling variant. -/
def monthMapProd : List (String × String) :=
  [("ENERO", "01"), ("FEBRERO", "02"), ("MARZO", "03"), ("ABRIL", "04"),
   ("MAYO", "05"), ("JUNIO", "06"), ("JULIO", "07"), ("AGOSTO", "08"),
   ("SETIEMBRE", "09"), ("SEPTIEMBRE", "09"), ("OCTUBRE", "10"),
   ("NOVIEMBRE", "11"), ("DICIEMBRE", "12")]

/-- month_map.get on an exact key. -/
def monthLookup (m : String) : Option String :=
  (monthMapProd.find? (fun p => p.1 = m)).map Prod.snd

/-- Composition of lines 119-122: month_map.get, pd.to_numeric with
coercion, dropna, astype(int). -/
def monthNum (m : String) : Option Nat :=
  match monthLookup m with
  | some v => (pyToNumeric v).map (fun q => q.num.toNat)
  | none => none

/-- pandas column naming when reading with a header row: a missing header
cell becomes "Unnamed: idx". -/
def colNameAt (idx : Nat) (c : Cell) : String :=
  match c with
  | Cell.blank => "Unnamed: " ++ toString idx
  | c => cellToStr c

/-- A sheet read with a given header row: column names from that row, data
rows below it. -/
structure Sheet where
  cols : List String
  rows : List (List Cell)

/-- pandas read_excel(header=h) on a raw grid. -/
def readWithHeader (grid : List (List Cell)) (h : Nat) : Sheet :=
  { cols := (grid.getD h []).enum.map (fun p => colNameAt p.1 p.2),
    rows := grid.drop (h + 1) }

/-- Cell of a data row at a column position; a short row reads as missing. -/
def cellAt (row : List Cell) (i : Nat) : Cell :=
  row.getD i Cell.blank

/-- Position of the first column with the given name. -/
def colFirstIdx (cols : List String) (name : String) : Nat :=
  ((cols.enum.find? (fun p => p.2 = name)).map Prod.fst).getD 0

/-- One melted observation of _process_historico (line 110): the central
cell, the month column name, and the raw energy cell. -/
structure MeltRow where
  central : Cell
  mes_raw : String
  energia_kwh : Cell
  deriving DecidableEq, Repr

/-- One production-history row after lines 118-126, before entity
reconciliation. -/
structure HistPre where
  central : Cell
  anio : Int
  mes : Nat
  periodo : String
  energia_mwh : Option Rat
  deriving DecidableEq, Repr

/-- One normalized production-history row (the columns selected at line
131). -/
structure HistRow where
  central_id : String
  central : Cell
  anio : Int
  mes : Nat
  periodo : String
  energia_mwh : Option Rat
  deriving DecidableEq, Repr

/-- int(str(sheet).strip()[:4]) of line 85. -/
def histSheetYear (name : String) : Option Int :=
  pyInt (String.mk ((pyStrip name).data.take 4))

/-- Two-digit zero padding of a month number. -/
def pad2 (n : Nat) : String :=
  if n < 10 then "0" ++ toString n else toString n

/-- Lines 83-126 of _process_historico for one sheet: the year gate, header
detection with the keywords central/enero/diciembre on an 80-row preview,
the CENTRAL-column requirement, month-column selection by substring against
month_map, the melt, the dropna on central, month resolution, the kWh to
MWh conversion (null for unparseable values, not an error), and the periodo
key. Returns none when the source hits a continue (sheet skipped). -/
def histPreRows (sheetName : String) (grid : List (List Cell)) :
    Option (List HistPre) :=
  match histSheetYear sheetName with
  | none => none
  | some year =>
    if year < 2010 ∨ year > 2025 then none
    else
      let headerRow :=
        detect_header_row (grid.take 80) [] ["central", "enero", "diciembre"]
      let sheet := readWithHeader grid headerRow
      let cols1 := sheet.cols.map (fun c => pyUpper (pyStrip c))
      if sheet.rows = [] then none
      else if "CENTRAL" ∉ cols1 then none
      else
        let cols2 := cols1.map (fun c => if c = "CENTRAL" then "central" else c)
        let monthCols := cols2.enum.filter fun p =>
          monthMapProd.any (fun m => strIn m.1 (pyUpper p.2))
        if monthCols = [] then none
        else
          let centralIdx := colFirstIdx cols2 "central"
          let melted := monthCols.flatMap fun p =>
            sheet.rows.map fun row =>
              MeltRow.mk (cellAt row centralIdx) p.2 (cellAt row p.1)
          let m1 := melted.filter fun r => cellNotna r.central
          let m2 := m1.filterMap fun r =>
            (monthNum (pyStrip (pyUpper r.mes_raw))).map (fun mn => (r, mn))
          some (m2.map fun rm =>
            HistPre.mk rm.1.central year rm.2
              (toString year ++ pad2 rm.2)
              ((cellToNumeric rm.1.energia_kwh).map (fun q => qDivNat q 1000)))

/-- Lines 128-131: entity reconciliation over the central column, dropna on
central_id, and column selection. -/
def processHistSheet (centrales : List (String × String))
    (sheetName : String) (grid : List (List Cell)) :
    Option (List HistRow) :=
  match histPreRows sheetName grid with
  | none => none
  | some pre =>
    let ids := map_central_id centrales (pre.map (fun r => r.central))
    some ((pre.zip ids).filterMap fun pr =>
      pr.2.map fun id =>
        HistRow.mk id pr.1.central pr.1.anio pr.1.mes pr.1.periodo
          pr.1.energia_mwh)

/-- drop_duplicates subset of line 137: ["periodo", "central",
"central_id"]. -/
def histKey (r : HistRow) : String × Cell × String :=
  (r.periodo, r.central, r.central_id)

/-- Total order on cells for the sort of line 136; the sources only ever
sort value-homogeneous columns (pandas raises on mixed types). -/
def cellLeB : Cell → Cell → Bool
  | Cell.str a, Cell.str b => pyStrLt a b || a == b
  | Cell.str _, _ => true
  | Cell.int _, Cell.str _ => false
  | Cell.int a, Cell.int b => a ≤ b
  | Cell.int _, Cell.blank => true
  | Cell.blank, Cell.blank => true
  | Cell.blank, _ => false

/-- Sort key of line 136: ["periodo", "central"], lexicographic; the
multi-column pandas sort is stable. -/
def histLeB (a b : HistRow) : Bool :=
  pyStrLt a.periodo b.periodo ||
    (a.periodo == b.periodo && cellLeB a.central b.central)

/-- Lines 136-137: stable sort by (periodo, central) followed by
drop_duplicates on the natural key with keep="first". -/
def histFinalize (rows : List HistRow) : List HistRow :=
  dedupFirst histKey (List.insertionSort (fun a b => histLeB a b = true) rows)

/-- Embedding of _process_historico (produccion.py lines 58-140): process
every sheet, concatenate the per-sheet frames (the dropna on periodo is a
no-op: periodo is always constructed), sort and deduplicate; an empty frame
list yields the empty table. -/
def process_historico (centrales : List (String × String))
    (wb : List (String × List (List Cell))) : List HistRow :=
  let frames := wb.filterMap fun p => processHistSheet centrales p.1 p.2
  if frames = [] then [] else histFinalize frames.flatten

/-- C2 counterexample: Scenario A — sheet "2010" with columns CENTRAL and
ENERO and the single row [CH1, 1000] — yields an EMPTY normalized
production table, not the claimed single row: the label CH1 has no exact or
0.6-cutoff fuzzy match among the reference plant names, so its central_id
is null and the row is dropped. -/
theorem C2_counterexample :
    process_historico (loadCentralesReference centralesDefault)
        [("2010",
          [[Cell.str "CENTRAL", Cell.str "ENERO"],
           [Cell.str "CH1", Cell.int 1000]])] = [] ∧
      ¬ ∃ r ∈ process_historico (loadCentralesReference centralesDefault)
          [("2010",
            [[Cell.str "CENTRAL", Cell.str "ENERO"],
             [Cell.str "CH1", Cell.int 1000]])],
        r.central_id = "CH1" ∧ r.periodo = "201001" ∧
          r.energia_mwh = some 1 := by
  decide

/-- C2 amended: on Scenario A the melt and unit conversion do produce one
pre-reconciliation row with periodo 201001 and energia_mwh 1.0 (1000 kWh ->
1 MWh), but the label CH1 does not reconcile against the reference names
(map_central_id returns null), so the final normalized production table is
empty. -/
theorem C2_scenarioA_result :
    histPreRows "2010"
        [[Cell.str "CENTRAL", Cell.str "ENERO"],
         [Cell.str "CH1", Cell.int 1000]] =
      some [HistPre.mk (Cell.str "CH1") 2010 1 "201001" (some 1)] ∧
    map_central_id (loadCentralesReference centralesDefault)
        [Cell.str "CH1"] = [none] ∧
    process_historico (loadCentralesReference centralesDefault)
        [("2010",
          [[Cell.str "CENTRAL", Cell.str "ENERO"],
           [Cell.str "CH1", Cell.int 1000]])] = [] := by
  decide

lemma cellLeB_refl (c : Cell) : cellLeB c c = true := by
  cases c with
  | str a => simp [cellLeB]
  | int n => simp [cellLeB]
  | blank => rfl

/-- C3 counterexample: a 2010 sheet listing CHARCANI I twice in ENERO, with
1000 kWh then 2000 kWh, melts to two rows sharing the natural key; the
produced table holds the FIRST row's value 1.0 MWh, not the later row's 2.0
MWh as the "last wins" claim states. -/
theorem C3_counterexample :
    process_historico (loadCentralesReference centralesDefault)
        [("2010",
          [[Cell.str "CENTRAL", Cell.str "ENERO"],
           [Cell.str "CHARCANI I", Cell.int 1000],
           [Cell.str "CHARCANI I", Cell.int 2000]])] =
      [HistRow.mk "CH1" (Cell.str "CHARCANI I") 2010 1 "201001" (some 1)] ∧
      (some (1 : Rat) : Option Rat) ≠ some 2 := by
  decide

/-- C3 amended: the production-history deduplication keeps the FIRST
occurrence in source order: for any two rows sharing the natural key
(periodo, central, central_id), the sort-then-drop_duplicates stage of
_process_historico keeps exactly the earlier row. -/
theorem C3_dedup_first_wins (r1 r2 : HistRow)
    (hk : histKey r1 = histKey r2) :
    histFinalize [r1, r2] = [r1] := by
  have hper : r1.periodo = r2.periodo := congrArg Prod.fst hk
  have hcen : r1.central = r2.central :=
    congrArg (fun p => p.2.1) hk
  have hle : histLeB r1 r2 = true := by
    rw [histLeB, hper, hcen]
    simp [cellLeB_refl]
  rw [histFinalize]
  rw [show List.insertionSort (fun a b => histLeB a b = true) [r1, r2] =
      List.orderedInsert (fun a b => histLeB a b = true) r1 [r2] from rfl]
  rw [List.orderedInsert, if_pos hle]
  rw [dedupFirst, dedupFirstBy, if_neg (by simp), dedupFirstBy,
    if_pos (by simp [hk]), dedupFirstBy]

/-- Witness for the amended C3 at two concrete rows sharing the key. -/
theorem C3_witness :
    histFinalize
        [HistRow.mk "CH1" (Cell.str "CHARCANI I") 2010 1 "201001" (some 1),
         HistRow.mk "CH1" (Cell.str "CHARCANI I") 2010 1 "201001" (some 2)] =
      [HistRow.mk "CH1" (Cell.str "CHARCANI I") 2010 1 "201001" (some 1)] :=
  C3_dedup_first_wins _ _ (by decide)

/- ===================================================================
   Reconciliation soundness (claim C5)
   =================================================================== -/

lemma dictGet_mem {d : List (String × String)} {k v : String}
    (h : dictGet d k = some v) : (k, v) ∈ d := by
  rw [dictGet] at h
  cases hf : d.find? (fun p => p.1 = k) with
  | none => rw [hf] at h; exact absurd h (by simp)
  | some p =>
    rw [hf] at h
    have hp := List.find?_some hf
    have hmem := List.mem_of_find?_eq_some hf
    have h1 : p.1 = k := by simpa using hp
    have h2 : p.2 = v := by simpa using h
    have : p = (k, v) := Prod.ext h1 h2
    rwa [this] at hmem

lemma nlargestFold_mem :
    ∀ (l : List ((Nat × Nat) × String))
      (acc : Option ((Nat × Nat) × String)),
      l.foldl nlargestPick acc = acc ∨
        ∃ c ∈ l, l.foldl nlargestPick acc = some c := by
  intro l
  induction l with
  | nil => intro acc; exact Or.inl rfl
  | cons x xs ih =>
    intro acc
    rw [List.foldl_cons]
    have hstep : nlargestPick acc x = acc ∨ nlargestPick acc x = some x := by
      cases acc with
      | none => exact Or.inr rfl
      | some b =>
        rw [nlargestPick]
        by_cases hc :
            (ratioLt b.1 x.1 || (ratioEquiv b.1 x.1 && pyStrLt b.2 x.2)) =
              true
        · rw [if_pos hc]; exact Or.inr rfl
        · rw [if_neg hc]; exact Or.inl rfl
    rcases ih (nlargestPick acc x) with h | ⟨c, hc, h⟩
    · rcases hstep with hs | hs
      · exact Or.inl (h.trans hs)
      · exact Or.inr ⟨x, by simp, h.trans hs⟩
    · exact Or.inr ⟨c, by simp [hc], h⟩

lemma getCloseMatches1_spec (word : String) (poss : List String) :
    getCloseMatches1 word poss = [] ∨
      ∃ c, getCloseMatches1 word poss = [c] ∧ c ∈ poss ∧
        ratioGeCutoff (ratioPair c.data word.data) = true := by
  rw [getCloseMatches1]
  rcases nlargestFold_mem
      (poss.filterMap fun x =>
        if ratioGeCutoff (ratioPair x.data word.data) then
          some (ratioPair x.data word.data, x)
        else none)
      none with h | ⟨c, hc, h⟩
  · rw [h]; exact Or.inl rfl
  · rw [h]
    obtain ⟨y, hy, hyc⟩ := List.mem_filterMap.mp hc
    by_cases hcut : ratioGeCutoff (ratioPair y.data word.data) = true
    · rw [if_pos hcut, Option.some_inj] at hyc
      refine Or.inr ⟨c.2, rfl, ?_, ?_⟩
      · rw [← hyc]; exact hy
      · rw [← hyc]; exact hcut
    · rw [if_neg hcut] at hyc; simp at hyc

lemma getCloseMatches1_nil (word : String) (poss : List String)
    (h : ∀ x ∈ poss, ratioGeCutoff (ratioPair x.data word.data) = false) :
    getCloseMatches1 word poss = [] := by
  rw [getCloseMatches1]
  have hsc : (poss.filterMap fun x =>
      if ratioGeCutoff (ratioPair x.data word.data) then
        some (ratioPair x.data word.data, x)
      else none) = [] := by
    rw [List.filterMap_eq_nil_iff]
    intro x hx
    rw [if_neg (by simp [h x hx])]
  rw [hsc]
  rfl

/-- Cache coherence: every cached answer agrees with the cache-free
_match. -/
def cacheOK (cmap : List (String × String)) (known : List String)
    (cache : List (String × Option String)) : Prop :=
  ∀ p ∈ cache, p.2 = matchCentral cmap known p.1

lemma matchCentralCached_eq {cmap : List (String × String)}
    {known : List String} {cache : List (String × Option String)}
    (h : cacheOK cmap known cache) (name : String) :
    (matchCentralCached cmap known cache name).1 =
        matchCentral cmap known name ∧
      cacheOK cmap known (matchCentralCached cmap known cache name).2 := by
  cases hf : cache.find? (fun p => p.1 = name) with
  | none =>
    rw [matchCentralCached, hf]
    refine ⟨rfl, ?_⟩
    intro p hp
    rcases List.mem_cons.mp hp with hp | hp
    · rw [hp]
    · exact h p hp
  | some p =>
    rw [matchCentralCached, hf]
    have hp1 : p.1 = name := by simpa using List.find?_some hf
    have hmem := List.mem_of_find?_eq_some hf
    constructor
    · show p.2 = matchCentral cmap known name
      rw [h p hmem, hp1]
    · exact h

lemma mapMatchRun_fold {cmap : List (String × String)}
    {known : List String} :
    ∀ (labels : List String) (acc : List (Option String))
      (cache : List (String × Option String)),
      cacheOK cmap known cache →
      (labels.foldl
        (fun (st : List (Option String) × List (String × Option String))
            nm =>
          let r := matchCentralCached cmap known st.2 nm
          (st.1 ++ [r.1], r.2))
        (acc, cache)).1 = acc ++ labels.map (matchCentral cmap known) := by
  intro labels
  induction labels with
  | nil => intro acc cache _; simp
  | cons nm rest ih =>
    intro acc cache hcache
    rw [List.foldl_cons]
    obtain ⟨h1, h2⟩ := matchCentralCached_eq hcache nm
    rw [ih (acc ++ [(matchCentralCached cmap known cache nm).1])
        (matchCentralCached cmap known cache nm).2 h2]
    rw [h1, List.map_cons, List.append_assoc]
    rfl

lemma mapMatchRun_eq (cmap : List (String × String)) (known : List String)
    (labels : List String) :
    mapMatchRun cmap known labels = labels.map (matchCentral cmap known) := by
  rw [mapMatchRun]
  have := @mapMatchRun_fold cmap known labels [] []
    (by intro p hp; simp at hp)
  rw [this]
  rfl

/-- C5: the entity reconciler assigns a canonical id only on an exact match
of the normalized label or when the top-1 fuzzy candidate clears the 0.6
cutoff; when nothing clears the cutoff (and there is no exact non-empty
match) it returns null; an assigned id always comes from the reference map,
never fabricated; and the cached per-run column map agrees with the pure
_match, so the same label always maps to the same result within a run. -/
theorem C5_map_central_id_sound (cmap : List (String × String))
    (known : List String) (name : String) :
    (∀ id, matchCentral cmap known name = some id → ∃ k, (k, id) ∈ cmap) ∧
    (∀ id, matchCentral cmap known name = some id →
      (dictGet cmap name = some id ∧ id ≠ "") ∨
        ∃ c, getCloseMatches1 name known = [c] ∧ c ∈ known ∧
          ratioGeCutoff (ratioPair c.data name.data) = true ∧
          dictGet cmap c = some id) ∧
    ((dictGet cmap name = none ∨ dictGet cmap name = some "") →
      (∀ x ∈ known, ratioGeCutoff (ratioPair x.data name.data) = false) →
      matchCentral cmap known name = none) ∧
    (∀ labels : List String,
      mapMatchRun cmap known labels =
        labels.map (matchCentral cmap known) ∧
      ∀ i j : Nat, labels[i]? = labels[j]? →
        (mapMatchRun cmap known labels)[i]? =
          (mapMatchRun cmap known labels)[j]?) := by
  have hfuzzy : ∀ id, matchCentralFuzzy cmap known name = some id →
      ∃ c, getCloseMatches1 name known = [c] ∧ c ∈ known ∧
        ratioGeCutoff (ratioPair c.data name.data) = true ∧
        dictGet cmap c = some id := by
    intro id h
    rw [matchCentralFuzzy] at h
    rcases getCloseMatches1_spec name known with hg | ⟨c, hg, hcm, hcut⟩
    · rw [hg] at h; simp at h
    · rw [hg] at h
      exact ⟨c, hg, hcm, hcut, h⟩
  refine ⟨?_, ?_, ?_, ?_⟩
  · intro id h
    rw [matchCentral] at h
    cases hd : dictGet cmap name with
    | some d =>
      rw [hd] at h
      have h' : (if d = "" then matchCentralFuzzy cmap known name
          else some d) = some id := h
      by_cases hde : d = ""
      · rw [if_pos hde] at h'
        obtain ⟨c, _, _, _, hgc⟩ := hfuzzy id h'
        exact ⟨c, dictGet_mem hgc⟩
      · rw [if_neg hde, Option.some_inj] at h'
        exact ⟨name, dictGet_mem (show dictGet cmap name = some id by
          rw [hd, h'])⟩
    | none =>
      rw [hd] at h
      have h' : matchCentralFuzzy cmap known name = some id := h
      obtain ⟨c, _, _, _, hgc⟩ := hfuzzy id h'
      exact ⟨c, dictGet_mem hgc⟩
  · intro id h
    rw [matchCentral] at h
    cases hd : dictGet cmap name with
    | some d =>
      rw [hd] at h
      have h' : (if d = "" then matchCentralFuzzy cmap known name
          else some d) = some id := h
      by_cases hde : d = ""
      · rw [if_pos hde] at h'
        exact Or.inr (hfuzzy id h')
      · rw [if_neg hde, Option.some_inj] at h'
        refine Or.inl ⟨by rw [h'], ?_⟩
        rw [← h']
        exact hde
    | none =>
      rw [hd] at h
      have h' : matchCentralFuzzy cmap known name = some id := h
      exact Or.inr (hfuzzy id h')
  · intro hd hcut
    have hnil : matchCentralFuzzy cmap known name = none := by
      rw [matchCentralFuzzy, getCloseMatches1_nil name known hcut]
    rw [matchCentral]
    rcases hd with hd | hd
    · rw [hd]; exact hnil
    · rw [hd]
      show (if ("" : String) = "" then matchCentralFuzzy cmap known name
        else some "") = none
      rw [if_pos rfl]
      exact hnil
  · intro labels
    refine ⟨mapMatchRun_eq cmap known labels, ?_⟩
    intro i j hij
    rw [mapMatchRun_eq cmap known labels, List.getElem?_map,
      List.getElem?_map, hij]

/-- Reference dict of the EGASA default plants, as built inside
map_central_id: normalized name to central_id. -/
def egasaCmap : List (String × String) :=
  buildDict ((loadCentralesReference centralesDefault).map
    (fun p => (p.2, p.1)))

/-- known_names over the EGASA default reference. -/
def egasaKnown : List String :=
  egasaCmap.map Prod.fst

/-- Witness for C5 at the EGASA reference: the exact label CHARCANI I maps
to CH1, the below-cutoff label CH1 maps to null, and a cached run over a
column repeating both labels agrees with the pure map. -/
theorem C5_witness :
    (∃ k, (k, "CH1") ∈ egasaCmap) ∧
      matchCentral egasaCmap egasaKnown "CH1" = none ∧
      mapMatchRun egasaCmap egasaKnown
          ["CHARCANI I", "CH1", "CHARCANI I"] =
        ["CHARCANI I", "CH1", "CHARCANI I"].map
          (matchCentral egasaCmap egasaKnown) :=
  ⟨(C5_map_central_id_sound egasaCmap egasaKnown "CHARCANI I").1 "CH1"
      (by decide),
    (C5_map_central_id_sound egasaCmap egasaKnown "CH1").2.2.1 (by decide)
      (by decide),
    ((C5_map_central_id_sound egasaCmap egasaKnown "CH1").2.2.2
      ["CHARCANI I", "CH1", "CHARCANI I"]).1⟩

/- ===================================================================
   Report-date extraction
   (src/etl/pipelines/hidrologia.py lines 77-173)
   =================================================================== -/

/-- Regex word character (\w) over this repository's repertoire: ASCII
alphanumerics, underscore, and the accented Spanish letters. -/
def isWordCharPy (c : Char) : Bool :=
  isAsciiAlnum c || c = '_' ||
    c = 'Á' || c = 'É' || c = 'Í' || c = 'Ó' || c = 'Ú' || c = 'Ñ' ||
    c = 'Ü' || c = 'á' || c = 'é' || c = 'í' || c = 'ó' || c = 'ú' ||
    c = 'ñ' || c = 'ü'

/-- Word boundary after a match that ends in a word character: the rest of
the text starts with a non-word character or is empty. -/
def endBoundary : List Char → Bool
  | [] => true
  | c :: _ => !isWordCharPy c

/-- Date separator class [-./] of the numeric date patterns. -/
def isSepChar (c : Char) : Bool :=
  c = '.' || c = '/' || c = '-'

/-- Greedy match of \d{1,2} with backtracking: try two digits, then one,
feeding the parsed value and the remaining text to the continuation. -/
def greedyD2 {α : Type} (l : List Char) (k : Nat → List Char → Option α) :
    Option α :=
  match l with
  | [] => none
  | [a] => if a.isDigit then k (a.toNat - 48) [] else none
  | a :: b :: rest =>
    if a.isDigit then
      if b.isDigit then
        (k ((a.toNat - 48) * 10 + (b.toNat - 48)) rest) <|>
          (k (a.toNat - 48) (b :: rest))
      else k (a.toNat - 48) (b :: rest)
    else none

/-- Match of (20\d{2}): a literal 20 and two digits. -/
def year20 : List Char → Option (Nat × List Char)
  | '2' :: '0' :: c :: d :: rest =>
    if c.isDigit && d.isDigit then
      some (2000 + (c.toNat - 48) * 10 + (d.toNat - 48), rest)
    else none
  | _ => none

/-- Match of \s+ (maximal, which is exact here because every continuation
starts with a non-space character). -/
def wsPlus (l : List Char) : Option (List Char) :=
  if (l.takeWhile fun c => isPySpace c) = [] then none
  else some (l.dropWhile fun c => isPySpace c)

/-- Match of \s* (maximal). -/
def wsStar (l : List Char) : List Char :=
  l.dropWhile fun c => isPySpace c

/-- Match of the literal DE. -/
def expectDE : List Char → Option (List Char)
  | 'D' :: 'E' :: rest => some rest
  | _ => none

/-- Character class [A-ZÁÉÍÓÚÑ] of the Spanish month-name patterns. -/
def monthClassChar (c : Char) : Bool :=
  c.isUpper || c = 'Á' || c = 'É' || c = 'Í' || c = 'Ó' || c = 'Ú' ||
    c = 'Ñ'

/-- Match of ([A-ZÁÉÍÓÚÑ]+) as a maximal run (exact: each continuation
starts with whitespace). -/
def letterRun (l : List Char) : Option (List Char × List Char) :=
  let r := l.takeWhile monthClassChar
  if r = [] then none else some (r, l.dropWhile monthClassChar)

/-- Attempt of pattern 1 — (20\d{2})[-./](\d{1,2})[-./](\d{1,2})\b — at one
position (the leading \b is checked by the scanner). Yields (y, m, d). -/
def p1Here (l : List Char) : Option (Nat × Nat × Nat) :=
  match year20 l with
  | none => none
  | some (y, rest) =>
    match rest with
    | s1 :: rest1 =>
      if isSepChar s1 then
        greedyD2 rest1 fun mo rest2 =>
          match rest2 with
          | s2 :: rest3 =>
            if isSepChar s2 then
              greedyD2 rest3 fun d rest4 =>
                if endBoundary rest4 then some (y, mo, d) else none
            else none
          | [] => none
      else none
    | [] => none

/-- Attempt of pattern 2 — (\d{1,2})[-./](\d{1,2})[-./](20\d{2})\b — at one
position. Yields (d, m, y). -/
def p2Here (l : List Char) : Option (Nat × Nat × Nat) :=
  greedyD2 l fun d rest =>
    match rest with
    | s1 :: rest1 =>
      if isSepChar s1 then
        greedyD2 rest1 fun mo rest2 =>
          match rest2 with
          | s2 :: rest3 =>
            if isSepChar s2 then
              match year20 rest3 with
              | some (y, rest4) =>
                if endBoundary rest4 then some (d, mo, y) else none
              | none => none
            else none
          | [] => none
      else none
    | [] => none

/-- Shared body of patterns 3 and 4 after the optional AL prefix:
(\d{1,2})\s+DE\s+([A-ZÁÉÍÓÚÑ]+) then, when withSecondDE, \s+DE\s+(20\d{2}),
else \s+(20\d{2}); both end on \b. Yields (d, month letters, y). -/
def pDMYBody (withSecondDE : Bool) (l : List Char) :
    Option (Nat × List Char × Nat) :=
  greedyD2 l fun d r1 =>
    (wsPlus r1).bind fun r2 =>
    (expectDE r2).bind fun r3 =>
    (wsPlus r3).bind fun r4 =>
    (letterRun r4).bind fun mr =>
    (wsPlus mr.2).bind fun r6 =>
    (if withSecondDE then (expectDE r6).bind wsPlus else some r6).bind
      fun r8 =>
    (year20 r8).bind fun yr =>
    if endBoundary yr.2 then some (d, mr.1, yr.1) else none

/-- Attempt of pattern 3 — \b(?:AL\s*)?(\d{1,2})\s+DE\s+([A-ZÁÉÍÓÚÑ]+)\s+DE
\s+(20\d{2})\b — at one position; the AL alternative is tried first, as the
regex engine does. -/
def p3Here (l : List Char) : Option (Nat × List Char × Nat) :=
  (match l with
   | 'A' :: 'L' :: rest => pDMYBody true (wsStar rest)
   | _ => none) <|> pDMYBody true l

/-- Attempt of pattern 4 — \b(\d{1,2})\s+DE\s+([A-ZÁÉÍÓÚÑ]+)\s+(20\d{2})\b —
at one position. -/
def p4Here (l : List Char) : Option (Nat × List Char × Nat) :=
  pDMYBody false l

/-- re.search: scan positions left to right, attempting the pattern only
where a word boundary precedes (every pattern starts with a word
character); prevW records whether the previous character is a word
character. -/
def scanFor {α : Type} (pHere : List Char → Option α) :
    Bool → List Char → Option α
  | _, [] => none
  | prevW, c :: rest =>
    (if prevW then none else pHere (c :: rest)) <|>
      scanFor pHere (isWordCharPy c) rest

/-- Gregorian leap year. -/
def isLeap (y : Nat) : Bool :=
  (y % 4 = 0 && y % 100 ≠ 0) || y % 400 = 0

/-- Days in a month. -/
def daysInMonth (y m : Nat) : Nat :=
  if m = 2 then (if isLeap y then 29 else 28)
  else if m = 4 || m = 6 || m = 9 || m = 11 then 30
  else 31

/-- pd.Timestamp(year, month, day) succeeds exactly on calendar-valid
combinations (the years reachable here, 2000-2099, are inside the Timestamp
range). -/
def validYMD (y m d : Nat) : Bool :=
  1 ≤ m && m ≤ 12 && 1 ≤ d && d ≤ daysInMonth y m

/-- A parsed report date (a pd.Timestamp at midnight). -/
structure PyDate where
  y : Nat
  m : Nat
  d : Nat
  deriving DecidableEq, Repr

/-- Linearization of a date; on calendar-valid dates its order is the
chronological Timestamp order. -/
def dateVal (a : PyDate) : Nat :=
  a.y * 10000 + a.m * 100 + a.d

/-- Timestamp strict comparison on the reachable (valid) dates. -/
def dateLt (a b : PyDate) : Bool :=
  dateVal a < dateVal b

/-- MONTHS_ES of hidrologia.py lines 35-49. -/
def monthsEs : List (String × Nat) :=
  [("ENERO", 1), ("FEBRERO", 2), ("MARZO", 3), ("ABRIL", 4), ("MAYO", 5),
   ("JUNIO", 6), ("JULIO", 7), ("AGOSTO", 8), ("SETIEMBRE", 9),
   ("SEPTIEMBRE", 9), ("OCTUBRE", 10), ("NOVIEMBRE", 11), ("DICIEMBRE", 12)]

/-- MONTHS_ES.get. -/
def monthsEsGet (s : String) : Option Nat :=
  (monthsEs.find? (fun p => p.1 = s)).map Prod.snd

/-- The accent folding applied to the captured month name
(Á->A, É->E, Í->I, Ó->O, Ú->U; Ñ is kept). -/
def foldAccents (l : List Char) : List Char :=
  l.map fun c =>
    if c = 'Á' then 'A'
    else if c = 'É' then 'E'
    else if c = 'Í' then 'I'
    else if c = 'Ó' then 'O'
    else if c = 'Ú' then 'U'
    else c

/-- Pattern-4 stage of _try_parse_date_from_string (lines 126-147): an
unknown month name or an invalid date falls through to the final None. -/
def tryP4 (up : List Char) : Option PyDate :=
  match scanFor p4Here false up with
  | some r =>
    match monthsEsGet (String.mk (foldAccents r.2.1)) with
    | some mo => if validYMD r.2.2 mo r.1 then some ⟨r.2.2, mo, r.1⟩ else none
    | none => none
  | none => none

/-- Pattern-3 stage (lines 103-124): an unknown month name or an invalid
date falls through to pattern 4. -/
def tryP3 (up : List Char) : Option PyDate :=
  match scanFor p3Here false up with
  | some r =>
    match monthsEsGet (String.mk (foldAccents r.2.1)) with
    | some mo =>
      if validYMD r.2.2 mo r.1 then some ⟨r.2.2, mo, r.1⟩ else tryP4 up
    | none => tryP4 up
  | none => tryP4 up

/-- Pattern-2 stage (lines 94-101): an invalid date falls through to
pattern 3. -/
def tryP2 (up : List Char) : Option PyDate :=
  match scanFor p2Here false up with
  | some r =>
    if validYMD r.2.2 r.2.1 r.1 then some ⟨r.2.2, r.2.1, r.1⟩ else tryP3 up
  | none => tryP3 up

/-- Embedding of _try_parse_date_from_string (hidrologia.py lines 77-149):
a falsy (empty) input is None; otherwise the stripped, uppercased text is
searched with the four ordered patterns, each invalid hit falling through
to the next pattern, and None when nothing matches. -/
def try_parse_date_from_string (s : String) : Option PyDate :=
  if s = "" then none
  else
    let up := (pyUpper (pyStrip s)).data
    match scanFor p1Here false up with
    | some r =>
      if validYMD r.1 r.2.1 r.2.2 then some ⟨r.1, r.2.1, r.2.2⟩ else tryP2 up
    | none => tryP2 up

/-- One cell step of _extract_report_date_from_text: skip missing cells,
parse str(v), and keep the later of the running best and the parsed date. -/
def eStep (best : Option PyDate) (c : Cell) : Option PyDate :=
  if cellNotna c then
    match try_parse_date_from_string (cellToStr c) with
    | some ts =>
      match best with
      | none => some ts
      | some b => if dateLt b ts then some ts else some b
    | none => best
  else best

/-- Embedding of _extract_report_date_from_text (hidrologia.py lines
152-173) over the raveled preview cells: parse every non-missing cell's
text and keep the strictly latest date seen. -/
def extract_report_date (cells : List Cell) : Option PyDate :=
  cells.foldl eStep none

lemma dateLt_ge_trans {a b c : PyDate} (h1 : dateLt a b = false)
    (h2 : dateLt c b = true ∨ dateLt b c = false) :
    dateLt a c = false := by
  simp only [dateLt, decide_eq_false_iff_not, decide_eq_true_eq,
    not_lt] at h1 h2 ⊢
  rcases h2 with h2 | h2
  · omega
  · omega

lemma extract_fold_spec :
    ∀ (cells : List Cell) (acc : Option PyDate),
      (∀ dd, cells.foldl eStep acc = some dd →
        ((acc = some dd ∨ ∃ c ∈ cells, cellNotna c = true ∧
            try_parse_date_from_string (cellToStr c) = some dd) ∧
          (∀ a, acc = some a → dateLt dd a = false) ∧
          ∀ c ∈ cells, ∀ d2, cellNotna c = true →
            try_parse_date_from_string (cellToStr c) = some d2 →
            dateLt dd d2 = false)) ∧
      (cells.foldl eStep acc = none → acc = none ∧
        ∀ c ∈ cells, cellNotna c = true →
          try_parse_date_from_string (cellToStr c) = none) := by
  intro cells
  induction cells with
  | nil =>
    intro acc
    simp only [List.foldl_nil]
    constructor
    · intro dd h
      refine ⟨Or.inl h, ?_, by simp⟩
      intro a ha
      rw [h, Option.some_inj] at ha
      subst ha
      simp [dateLt]
    · intro h
      exact ⟨h, by simp⟩
  | cons c cs ih =>
    intro acc
    rw [List.foldl_cons]
    by_cases hn : cellNotna c = true
    · cases hp : try_parse_date_from_string (cellToStr c) with
      | none =>
        have hstep : eStep acc c = acc := by
          rw [eStep, if_pos hn, hp]
        rw [hstep]
        obtain ⟨ih1, ih2⟩ := ih acc
        constructor
        · intro dd h
          obtain ⟨ha, hb, hc⟩ := ih1 dd h
          refine ⟨?_, hb, ?_⟩
          · rcases ha with ha | ⟨c2, hc2, hd2⟩
            · exact Or.inl ha
            · exact Or.inr ⟨c2, by simp [hc2], hd2⟩
          · intro c2 hc2 d2 hn2 hp2
            rcases List.mem_cons.mp hc2 with hc2 | hc2
            · subst hc2; rw [hp] at hp2; cases hp2
            · exact hc c2 hc2 d2 hn2 hp2
        · intro h
          obtain ⟨h1, h2⟩ := ih2 h
          refine ⟨h1, ?_⟩
          intro c2 hc2 hn2
          rcases List.mem_cons.mp hc2 with hc2 | hc2
          · subst hc2; exact hp
          · exact h2 c2 hc2 hn2
      | some ts =>
        have hstep : eStep acc c =
            (match acc with
              | none => some ts
              | some b => if dateLt b ts then some ts else some b) := by
          rw [eStep, if_pos hn, hp]
        cases hacc : acc with
        | none =>
          rw [hacc] at hstep
          have hstep2 : eStep none c = some ts := hstep
          rw [hstep2]
          obtain ⟨ih1, ih2⟩ := ih (some ts)
          constructor
          · intro dd h
            obtain ⟨ha, hb, hc⟩ := ih1 dd h
            refine ⟨?_, by simp, ?_⟩
            · rcases ha with ha | ⟨c2, hc2, hd2⟩
              · rw [Option.some_inj] at ha
                exact Or.inr ⟨c, by simp, hn, ha ▸ hp⟩
              · exact Or.inr ⟨c2, by simp [hc2], hd2⟩
            · intro c2 hc2 d2 hn2 hp2
              rcases List.mem_cons.mp hc2 with hc2 | hc2
              · subst hc2
                rw [hp] at hp2
                rw [Option.some_inj] at hp2
                subst hp2
                exact hb ts rfl
              · exact hc c2 hc2 d2 hn2 hp2
          · intro h
            obtain ⟨h1, _⟩ := ih2 h
            cases h1
        | some b =>
          rw [hacc] at hstep
          have hstep2 : eStep (some b) c =
              (if dateLt b ts then some ts else some b) := hstep
          by_cases hlt : dateLt b ts = true
          · rw [if_pos hlt] at hstep2
            rw [hstep2]
            obtain ⟨ih1, ih2⟩ := ih (some ts)
            constructor
            · intro dd h
              obtain ⟨ha, hb, hc⟩ := ih1 dd h
              have hddts : dateLt dd ts = false := hb ts rfl
              refine ⟨?_, ?_, ?_⟩
              · rcases ha with ha | ⟨c2, hc2, hd2⟩
                · rw [Option.some_inj] at ha
                  exact Or.inr ⟨c, by simp, hn, ha ▸ hp⟩
                · exact Or.inr ⟨c2, by simp [hc2], hd2⟩
              · intro a haeq
                rw [Option.some_inj] at haeq
                subst haeq
                exact dateLt_ge_trans hddts (Or.inl hlt)
              · intro c2 hc2 d2 hn2 hp2
                rcases List.mem_cons.mp hc2 with hc2 | hc2
                · subst hc2
                  rw [hp] at hp2
                  rw [Option.some_inj] at hp2
                  subst hp2
                  exact hddts
                · exact hc c2 hc2 d2 hn2 hp2
            · intro h
              obtain ⟨h1, _⟩ := ih2 h
              cases h1
          · have hlt' : dateLt b ts = false := by
              cases h : dateLt b ts
              · rfl
              · exact absurd h hlt
            rw [if_neg (by simp [hlt'])] at hstep2
            rw [hstep2]
            obtain ⟨ih1, ih2⟩ := ih (some b)
            constructor
            · intro dd h
              obtain ⟨ha, hb, hc⟩ := ih1 dd h
              have hddb : dateLt dd b = false := hb b rfl
              refine ⟨?_, ?_, ?_⟩
              · rcases ha with ha | ⟨c2, hc2, hd2⟩
                · exact Or.inl ha
                · exact Or.inr ⟨c2, by simp [hc2], hd2⟩
              · intro a haeq
                rw [Option.some_inj] at haeq
                subst haeq
                exact hddb
              · intro c2 hc2 d2 hn2 hp2
                rcases List.mem_cons.mp hc2 with hc2 | hc2
                · subst hc2
                  rw [hp] at hp2
                  rw [Option.some_inj] at hp2
                  subst hp2
                  exact dateLt_ge_trans hddb (Or.inr hlt')
                · exact hc c2 hc2 d2 hn2 hp2
            · intro h
              obtain ⟨h1, _⟩ := ih2 h
              cases h1
    · have hn' : cellNotna c = false := by
        cases h : cellNotna c
        · rfl
        · exact absurd h hn
      have hstep : eStep acc c = acc := by
        rw [eStep, if_neg (by simp [hn'])]
      rw [hstep]
      obtain ⟨ih1, ih2⟩ := ih acc
      constructor
      · intro dd h
        obtain ⟨ha, hb, hc⟩ := ih1 dd h
        refine ⟨?_, hb, ?_⟩
        · rcases ha with ha | ⟨c2, hc2, hd2⟩
          · exact Or.inl ha
          · exact Or.inr ⟨c2, by simp [hc2], hd2⟩
        · intro c2 hc2 d2 hn2 hp2
          rcases List.mem_cons.mp hc2 with hc2 | hc2
          · subst hc2; rw [hn'] at hn2; cases hn2
          · exact hc c2 hc2 d2 hn2 hp2
      · intro h
        obtain ⟨h1, h2⟩ := ih2 h
        refine ⟨h1, ?_⟩
        intro c2 hc2 hn2
        rcases List.mem_cons.mp hc2 with hc2 | hc2
        · subst hc2; rw [hn'] at hn2; cases hn2
        · exact h2 c2 hc2 hn2

/-- C6: the extracted reservoir report date is the latest parseable date of
the preview cells: whenever extraction yields a date, that date is parsed
from some non-missing cell and no cell parses to a strictly later date;
extraction yields None exactly when no cell parses; and on a preview
holding both "2024.12.10" and "AL 11 DE DICIEMBRE DE 2025" the extracted
date is 2025-12-11. -/
theorem C6_extract_report_date_latest (cells : List Cell) :
    (∀ dd, extract_report_date cells = some dd →
      (∃ c ∈ cells, cellNotna c = true ∧
          try_parse_date_from_string (cellToStr c) = some dd) ∧
        ∀ c ∈ cells, ∀ d2, cellNotna c = true →
          try_parse_date_from_string (cellToStr c) = some d2 →
          dateLt dd d2 = false) ∧
    (extract_report_date cells = none →
      ∀ c ∈ cells, cellNotna c = true →
        try_parse_date_from_string (cellToStr c) = none) ∧
    extract_report_date
        [Cell.str "2024.12.10", Cell.str "AL 11 DE DICIEMBRE DE 2025"] =
      some ⟨2025, 12, 11⟩ := by
  obtain ⟨h1, h2⟩ := extract_fold_spec cells none
  refine ⟨?_, ?_, by decide⟩
  · intro dd h
    obtain ⟨ha, _, hc⟩ := h1 dd h
    refine ⟨?_, hc⟩
    rcases ha with ha | ha
    · cases ha
    · exact ha
  · intro h
    exact (h2 h).2

/-- Witness for C6 at the Scenario C preview cells. -/
theorem C6_witness :
    ∃ c ∈ [Cell.str "2024.12.10", Cell.str "AL 11 DE DICIEMBRE DE 2025"],
      cellNotna c = true ∧
        try_parse_date_from_string (cellToStr c) =
          some ⟨2025, 12, 11⟩ :=
  ((C6_extract_report_date_latest
      [Cell.str "2024.12.10", Cell.str "AL 11 DE DICIEMBRE DE 2025"]).1
    ⟨2025, 12, 11⟩ (by decide)).1

/- ===================================================================
   Missing-source behavior of the normalizers (claim C7)
   DEFAULT_CONFIG: src/etl/config.py lines 34-80
   =================================================================== -/

/-- The "required" flags declared per source in DEFAULT_CONFIG (config.py
lines 42-80): the produccion sources carry no flag, both hidrologia sources
and facturacion are explicitly required, contratos and balance_energia are
explicitly optional. -/
def defaultConfigRequired : String → Option Bool
  | "hidrologia_control" => some true
  | "hidrologia_represas" => some true
  | "facturacion" => some true
  | "contratos" => some false
  | "balance_energia" => some false
  | _ => none

/-- A named output table together with its declared columns. -/
structure OutTable where
  name : String
  cols : List String
  deriving DecidableEq, Repr

/-- run_produccion (produccion.py lines 371-379) when no historico file
matches the pattern: the required flag is never consulted; the empty frame
with the declared columns is written (the 15-minute loop runs over no
files). -/
def runProduccionMissing : Except String (List OutTable) :=
  Except.ok
    [⟨"generacion_mensual",
      ["central_id", "central", "anio", "mes", "periodo", "energia_mwh"]⟩]

/-- run_hidrologia (hidrologia.py lines 393-428) when neither source file
matches: the required flag is never consulted (get_source is not even
imported there); the three empty frames with the declared columns are
written and no exception is raised. -/
def runHidrologiaMissing : Except String (List OutTable) :=
  Except.ok
    [⟨"hidro_volumen_mensual", ["reservorio", "anio", "mes", "volumen_000m3"]⟩,
     ⟨"hidro_caudal_mensual", ["estacion", "anio", "mes", "caudal_m3s"]⟩,
     ⟨"represas_diario", ["fecha", "reservorio"]⟩]

/-- run_facturacion (facturacion.py lines 210-242) when no file matches:
raise FileNotFoundError when (fact_cfg or {}).get("required", True) holds,
else write the empty declared frames. -/
def runFacturacionMissing (required : Option Bool) :
    Except String (List OutTable) :=
  if required.getD true then
    Except.error "FileNotFoundError: facturacion"
  else
    Except.ok
      [⟨"ventas_mensual_mwh", ["cliente", "periodo", "mwh"]⟩,
       ⟨"ventas_mensual_soles", ["cliente", "periodo", "soles"]⟩,
       ⟨"ingresos_mensual", ["anio", "mes", "cliente_o_concepto", "soles"]⟩,
       ⟨"precio_medio_mensual",
        ["periodo", "anio", "mes", "cliente", "precio_medio_soles_mwh"]⟩]

/-- run_contratos (contratos.py lines 84-102) when no file matches: raise
FileNotFoundError when (contratos_cfg or {}).get("required", True) holds,
else write the empty declared frames. -/
def runContratosMissing (required : Option Bool) :
    Except String (List OutTable) :=
  if required.getD true then
    Except.error "FileNotFoundError: contratos"
  else
    Except.ok
      [⟨"contratos_base",
        ["cliente", "tipo", "fecha_inicio", "fecha_fin", "energia_mwh",
         "precio"]⟩,
       ⟨"contratos_riesgo",
        ["cliente", "tipo", "fecha_inicio", "fecha_fin", "energia_mwh",
         "precio"]⟩]

/-- run_balance (balance_energia.py lines 197-205) when no file matches:
the required flag is never consulted; the two empty declared frames are
written. -/
def runBalanceMissing : Except String (List OutTable) :=
  Except.ok
    [⟨"balance_perfil_mensual",
      ["periodo", "fecha_mes", "concepto", "energia_mwh", "energia_gwh"]⟩,
     ⟨"balance_r_mensual",
      ["periodo", "fecha_mes", "segmento", "energia_mwh"]⟩]

/-- C7 counterexample: the hidrologia sources are configured as required in
DEFAULT_CONFIG, yet run_hidrologia with both source files absent raises
nothing and emits the empty declared tables — a configured-required absent
source that does NOT abort the run, contradicting the claim's universal
statement over the normalizers. -/
theorem C7_counterexample :
    defaultConfigRequired "hidrologia_control" = some true ∧
      defaultConfigRequired "hidrologia_represas" = some true ∧
      runHidrologiaMissing =
        Except.ok
          [⟨"hidro_volumen_mensual",
            ["reservorio", "anio", "mes", "volumen_000m3"]⟩,
           ⟨"hidro_caudal_mensual", ["estacion", "anio", "mes", "caudal_m3s"]⟩,
           ⟨"represas_diario", ["fecha", "reservorio"]⟩] :=
  ⟨rfl, rfl, rfl⟩

/-- C7 amended: only the facturacion and contratos normalizers enforce the
required flag on an absent source (raising when the flag — defaulting to
true — is set, and emitting empty declared-column tables when optional);
the produccion, hidrologia and balance normalizers never raise on an absent
source and always emit the empty declared-column tables, even though the
hidrologia sources are configured required in DEFAULT_CONFIG. -/
theorem C7_missing_source_behavior :
    (∀ r : Option Bool,
      (r.getD true = true →
        ∃ e, runFacturacionMissing r = Except.error e) ∧
      (r.getD true = false →
        runFacturacionMissing r =
          Except.ok
            [⟨"ventas_mensual_mwh", ["cliente", "periodo", "mwh"]⟩,
             ⟨"ventas_mensual_soles", ["cliente", "periodo", "soles"]⟩,
             ⟨"ingresos_mensual",
              ["anio", "mes", "cliente_o_concepto", "soles"]⟩,
             ⟨"precio_medio_mensual",
              ["periodo", "anio", "mes", "cliente",
               "precio_medio_soles_mwh"]⟩]) ∧
      (r.getD true = true →
        ∃ e, runContratosMissing r = Except.error e) ∧
      (r.getD true = false →
        ∃ ts, runContratosMissing r = Except.ok ts)) ∧
    (∃ e, runFacturacionMissing (defaultConfigRequired "facturacion") =
      Except.error e) ∧
    (∃ ts, runContratosMissing (defaultConfigRequired "contratos") =
      Except.ok ts) ∧
    (∃ ts, runProduccionMissing = Except.ok ts) ∧
    (∃ ts, runHidrologiaMissing = Except.ok ts) ∧
    (∃ ts, runBalanceMissing = Except.ok ts) ∧
    defaultConfigRequired "hidrologia_control" = some true := by
  refine ⟨?_, ?_, ?_, ?_, ?_, ?_, rfl⟩
  · intro r
    refine ⟨?_, ?_, ?_, ?_⟩
    · intro h
      rw [runFacturacionMissing, if_pos h]
      exact ⟨_, rfl⟩
    · intro h
      rw [runFacturacionMissing, if_neg (by simp [h])]
    · intro h
      rw [runContratosMissing, if_pos h]
      exact ⟨_, rfl⟩
    · intro h
      rw [runContratosMissing, if_neg (by simp [h])]
      exact ⟨_, rfl⟩
  · exact ⟨_, rfl⟩
  · exact ⟨_, rfl⟩
  · exact ⟨_, rfl⟩
  · exact ⟨_, rfl⟩
  · exact ⟨_, rfl⟩

/-- Witness for the amended C7 at the flag values of DEFAULT_CONFIG. -/
theorem C7_witness :
    (∃ e, runFacturacionMissing (some true) = Except.error e) ∧
      (∃ ts, runContratosMissing (some false) = Except.ok ts) :=
  ⟨((C7_missing_source_behavior).1 (some true)).1 (by decide),
    ((C7_missing_source_behavior).1 (some false)).2.2.2 (by decide)⟩

/- ===================================================================
   pandera stub (src/pandera/__init__.py) and schemas (src/etl/schemas.py)
   =================================================================== -/

/-- A pandas cell value inside a validated frame: an exact numeric (float)
value, text, a parsed datetime, or missing (NaN/NaT). -/
inductive PValue where
  | num (q : Rat)
  | text (s : String)
  | date (d : PyDate)
  | na
  deriving DecidableEq, Repr

/-- pd.isna on a value. -/
def pvIsNa : PValue → Bool
  | PValue.na => true
  | _ => false

/-- Python float formatting of the integral floats reaching str():
2025.0 prints as "2025.0". -/
def numToStr (q : Rat) : String :=
  if q.den = 1 then toString q.num ++ ".0" else toString q

/-- Python str() of a frame value (astype(str) semantics: NaN prints as
"nan"). -/
def pvToStr : PValue → String
  | PValue.text s => s
  | PValue.num q => numToStr q
  | PValue.date d =>
    toString d.y ++ "-" ++ pad2 d.m ++ "-" ++ pad2 d.d ++ " 00:00:00"
  | PValue.na => "nan"

/-- The dtypes used by the stub (pandera String/Int64/Float64/DateTime). -/
inductive PDType where
  | string
  | int64
  | float64
  | datetime
  deriving DecidableEq, Repr

/-- ISO yyyy-mm-dd parsing for the datetime coercion (the only datetime
text shape the embedded frames carry). -/
def parseIsoDate (s : String) : Option PyDate :=
  match s.data with
  | [y1, y2, y3, y4, '-', m1, m2, '-', d1, d2] =>
    if [y1, y2, y3, y4, m1, m2, d1, d2].all Char.isDigit then
      let y := digitsVal [y1, y2, y3, y4]
      let m := digitsVal [m1, m2]
      let d := digitsVal [d1, d2]
      if validYMD y m d then some ⟨y, m, d⟩ else none
    else none
  | _ => none

/-- DataFrameSchema._coerce_series of the stub (lines 60-65): numeric
dtypes via pd.to_numeric(errors="coerce"), datetime via
pd.to_datetime(errors="coerce"), strings via astype(str). -/
def coerceValue (dt : PDType) (v : PValue) : PValue :=
  match dt with
  | PDType.int64 | PDType.float64 =>
    match v with
    | PValue.num q => PValue.num q
    | PValue.na => PValue.na
    | PValue.date _ => PValue.na
    | PValue.text s =>
      match pyToNumeric s with
      | some q => PValue.num q
      | none => PValue.na
  | PDType.string =>
    match v with
    | PValue.na => PValue.text "nan"
    | v => PValue.text (pvToStr v)
  | PDType.datetime =>
    match v with
    | PValue.date d => PValue.date d
    | PValue.text s =>
      match parseIsoDate s with
      | some d => PValue.date d
      | none => PValue.na
    | _ => PValue.na

/-- The stub's Check constructors used by schemas.py: ge, in_range and
str_length. -/
inductive PCheck where
  | ge (c : Rat)
  | inRange (lo hi : Rat) (inclusive : Bool)
  | strLength (lo hi : Nat)
  deriving DecidableEq, Repr

/-- The name each Check carries (the f-strings of the stub; the bounds in
schemas.py are integer literals). -/
def checkNameOf : PCheck → String
  | PCheck.ge c => "ge_" ++ toString c.num
  | PCheck.inRange lo hi _ =>
    "in_range_" ++ toString lo.num ++ "_" ++ toString hi.num
  | PCheck.strLength lo hi =>
    "str_length_" ++ toString lo ++ "_" ++ toString hi

/-- Elementwise boolean series of a Check applied to a (coerced) series:
comparisons on NaN are False (so NaN also fails ge/in_range, as in pandas);
str_length measures astype(str). -/
def applyCheck (chk : PCheck) (series : List PValue) : List Bool :=
  series.map fun v =>
    match chk with
    | PCheck.ge c =>
      match v with
      | PValue.num q => decide (c ≤ q)
      | _ => false
    | PCheck.inRange lo hi incl =>
      match v with
      | PValue.num q =>
        if incl then decide (lo ≤ q ∧ q ≤ hi)
        else decide (lo < q ∧ q < hi)
      | _ => false
    | PCheck.strLength lo hi =>
      decide (lo ≤ (pvToStr v).length ∧ (pvToStr v).length ≤ hi)

/-- The stub's Column: dtype, nullability, per-column coercion, checks. -/
structure PColumn where
  dtype : PDType
  nullable : Bool
  coerce : Bool
  checks : List PCheck
  deriving DecidableEq, Repr

/-- The stub's DataFrameSchema: ordered named columns plus schema-level
coercion. -/
structure PSchema where
  columns : List (String × PColumn)
  coerce : Bool
  deriving DecidableEq, Repr

instance {ε α : Type} [DecidableEq ε] [DecidableEq α] :
    DecidableEq (Except ε α) := fun a b =>
  match a, b with
  | Except.ok x, Except.ok y =>
    if h : x = y then isTrue (h ▸ rfl)
    else isFalse fun he => h (Except.ok.inj he)
  | Except.error x, Except.error y =>
    if h : x = y then isTrue (h ▸ rfl)
    else isFalse fun he => h (Except.error.inj he)
  | Except.ok _, Except.error _ => isFalse fun he => Except.noConfusion he
  | Except.error _, Except.ok _ => isFalse fun he => Except.noConfusion he

/-- A pandas DataFrame: a row count and named columns. -/
structure PFrame where
  nrows : Nat
  cols : List (String × List PValue)
  deriving DecidableEq, Repr

/-- pandas df.empty: an axis of length zero. -/
def pframeEmpty (df : PFrame) : Bool :=
  df.nrows == 0 || df.cols.isEmpty

/-- Column lookup. -/
def pframeGet (df : PFrame) (name : String) : Option (List PValue) :=
  (df.cols.find? (fun p => p.1 = name)).map Prod.snd

/-- Column assignment (df[name] = series). -/
def pframeSet (df : PFrame) (name : String) (v : List PValue) : PFrame :=
  { df with cols := df.cols.map fun p => if p.1 = name then (name, v) else p }

/-- One failure record of the stub (column, check name, failing row
indices; the failure_case values are recoverable from the frame and
indices). -/
structure PFailure where
  column : String
  check : String
  indices : List Nat
  deriving DecidableEq, Repr

/-- Indices of a series where the predicate holds. -/
def idxWhere {α : Type} (p : α → Bool) (l : List α) : List Nat :=
  (l.enum.filter fun x => p x.2).map Prod.fst

/-- The per-check loop of the stub's validate (lines 89-102): append a
failure per check with failing indices, raising immediately when not
lazy. -/
def checksLoop (lazy : Bool) (name : String) (series1 : List PValue) :
    List PCheck → List PFailure → Except (List PFailure) (List PFailure)
  | [], fs => Except.ok fs
  | chk :: rest, fs =>
    let failedIdx := idxWhere (fun b => b = false) (applyCheck chk series1)
    if failedIdx = [] then checksLoop lazy name series1 rest fs
    else
      let fs1 := fs ++ [⟨name, checkNameOf chk, failedIdx⟩]
      if lazy then checksLoop lazy name series1 rest fs1
      else Except.error fs1

/-- The per-column loop of the stub's validate (lines 71-102): missing
column, coercion (updating df_validated), the non-null check, then the
checks; raising at the first failure when not lazy. -/
def validateCols (sc lazy : Bool) :
    List (String × PColumn) → PFrame → List PFailure →
      Except (List PFailure) (PFrame × List PFailure)
  | [], df, fs => Except.ok (df, fs)
  | (name, col) :: rest, df, fs =>
    match pframeGet df name with
    | none =>
      let fs1 := fs ++ [⟨name, "required", []⟩]
      if lazy then validateCols sc lazy rest df fs1 else Except.error fs1
    | some series =>
      let doCoerce := col.coerce || sc
      let series1 := if doCoerce then series.map (coerceValue col.dtype)
        else series
      let df1 := if doCoerce then pframeSet df name series1 else df
      let naIdx := idxWhere pvIsNa series1
      let nullFail := !col.nullable && !naIdx.isEmpty
      let fs1 := if nullFail then fs ++ [⟨name, "non_null", naIdx⟩] else fs
      if nullFail && !lazy then Except.error fs1
      else
        match checksLoop lazy name series1 col.checks fs1 with
        | Except.error fs2 => Except.error fs2
        | Except.ok fs2 => validateCols sc lazy rest df1 fs2

/-- DataFrameSchema.validate of the stub (lines 67-107): run the column
loop, then raise SchemaErrors when any failure was collected, else return
the coerced frame. -/
def schemaValidate (schema : PSchema) (df : PFrame) (lazy : Bool) :
    Except (List PFailure) PFrame :=
  match validateCols schema.coerce lazy schema.columns df [] with
  | Except.error fs => Except.error fs
  | Except.ok (df1, fs) =>
    if fs = [] then Except.ok df1 else Except.error fs

/-- SCHEMAS of src/etl/schemas.py lines 11-113, with get_schema returning
none for any other dataset (the generacion_15min partitions in
particular). -/
def SCHEMAS : List (String × PSchema) :=
  [("ventas_mensual_mwh",
    ⟨[("cliente", ⟨PDType.string, false, false, []⟩),
      ("periodo", ⟨PDType.string, false, true, [PCheck.strLength 6 6]⟩),
      ("anio", ⟨PDType.int64, true, true, []⟩),
      ("mes", ⟨PDType.int64, true, true, []⟩),
      ("mwh", ⟨PDType.float64, true, true, [PCheck.ge 0]⟩)], true⟩),
   ("ventas_mensual_soles",
    ⟨[("cliente", ⟨PDType.string, false, false, []⟩),
      ("periodo", ⟨PDType.string, false, true, [PCheck.strLength 6 6]⟩),
      ("anio", ⟨PDType.int64, true, true, []⟩),
      ("mes", ⟨PDType.int64, true, true, []⟩),
      ("soles", ⟨PDType.float64, true, true, [PCheck.ge 0]⟩)], true⟩),
   ("ingresos_mensual",
    ⟨[("anio", ⟨PDType.int64, false, true, []⟩),
      ("mes", ⟨PDType.int64, false, true, [PCheck.inRange 1 12 true]⟩),
      ("cliente_o_concepto", ⟨PDType.string, false, false, []⟩),
      ("soles", ⟨PDType.float64, false, true, []⟩)], true⟩),
   ("represas_diario",
    ⟨[("fecha", ⟨PDType.datetime, true, true, []⟩),
      ("reservorio", ⟨PDType.string, false, false, []⟩),
      ("volumen_actual", ⟨PDType.float64, true, true, []⟩),
      ("pct_llenado",
       ⟨PDType.float64, true, true, [PCheck.inRange 0 150 true]⟩)], true⟩),
   ("hidro_volumen_mensual",
    ⟨[("reservorio", ⟨PDType.string, false, false, []⟩),
      ("anio", ⟨PDType.int64, false, true, []⟩),
      ("mes", ⟨PDType.string, false, false, [PCheck.strLength 2 2]⟩),
      ("periodo", ⟨PDType.string, false, false, [PCheck.strLength 6 6]⟩),
      ("volumen_000m3",
       ⟨PDType.float64, true, true, [PCheck.ge 0]⟩)], true⟩),
   ("hidro_caudal_mensual",
    ⟨[("estacion", ⟨PDType.string, false, false, []⟩),
      ("anio", ⟨PDType.int64, false, true, []⟩),
      ("mes", ⟨PDType.string, false, false, [PCheck.strLength 2 2]⟩),
      ("periodo", ⟨PDType.string, false, false, [PCheck.strLength 6 6]⟩),
      ("caudal_m3s", ⟨PDType.float64, true, true, [PCheck.ge 0]⟩)], true⟩),
   ("balance_perfil_mensual",
    ⟨[("periodo", ⟨PDType.string, false, false, [PCheck.strLength 6 6]⟩),
      ("fecha_mes", ⟨PDType.datetime, true, true, []⟩),
      ("concepto", ⟨PDType.string, false, false, []⟩),
      ("energia_mwh", ⟨PDType.float64, true, true, []⟩),
      ("energia_gwh", ⟨PDType.float64, true, true, []⟩)], true⟩),
   ("balance_r_mensual",
    ⟨[("periodo", ⟨PDType.string, false, false, [PCheck.strLength 6 6]⟩),
      ("fecha_mes", ⟨PDType.datetime, true, true, []⟩),
      ("segmento", ⟨PDType.string, false, false, []⟩),
      ("energia_mwh", ⟨PDType.float64, true, true, []⟩)], true⟩),
   ("contratos_base",
    ⟨[("cliente", ⟨PDType.string, false, false, []⟩),
      ("tipo_contrato", ⟨PDType.string, true, false, []⟩),
      ("fecha_inicio", ⟨PDType.datetime, true, true, []⟩),
      ("fecha_fin", ⟨PDType.datetime, true, true, []⟩),
      ("potencia_mw", ⟨PDType.float64, true, true, [PCheck.ge 0]⟩),
      ("precio_hp_usd_mwh", ⟨PDType.float64, true, true, [PCheck.ge 0]⟩),
      ("precio_fp_usd_mwh",
       ⟨PDType.float64, true, true, [PCheck.ge 0]⟩)], true⟩),
   ("contratos_riesgo",
    ⟨[("cliente", ⟨PDType.string, false, false, []⟩),
      ("tipo_contrato", ⟨PDType.string, true, false, []⟩),
      ("fecha_inicio", ⟨PDType.datetime, true, true, []⟩),
      ("fecha_fin", ⟨PDType.datetime, true, true, []⟩),
      ("potencia_mw", ⟨PDType.float64, true, true, [PCheck.ge 0]⟩),
      ("precio_hp_usd_mwh", ⟨PDType.float64, true, true, [PCheck.ge 0]⟩),
      ("precio_fp_usd_mwh",
       ⟨PDType.float64, true, true, [PCheck.ge 0]⟩)], true⟩)]

/-- get_schema of schemas.py lines 116-121. -/
def get_schema (dataset : String) : Option PSchema :=
  (SCHEMAS.find? (fun p => p.1 = dataset)).map Prod.snd

/- ===================================================================
   validate_and_write (src/etl/utils_io.py lines 183-234)
   =================================================================== -/

/-- Characters invalid on Windows filesystems
(WINDOWS_INVALID_CHARS of utils_io.py line 107). -/
def isWinInvalid (c : Char) : Bool :=
  c = '<' || c = '>' || c = ':' || c = '"' || c = '/' || c = '\\' ||
    c = '|' || c = '?' || c = '*'

/-- sanitize_filename of utils_io.py lines 110-118: replace invalid
characters by underscores, strip trailing spaces and dots, and fall back to
a single underscore when nothing remains. -/
def sanitize_filename (name : String) : String :=
  let cleaned := name.data.map fun c => if isWinInvalid c then '_' else c
  let cleaned2 :=
    (cleaned.reverse.dropWhile (fun c => c = ' ' || c = '.')).reverse
  if cleaned2 = [] then "_" else String.mk cleaned2

/-- The run context held in _RUN_CONTEXT (utils_io.py lines 22-26 and
set_run_context): the run id, the strict flag, and the fallback timestamp
used when no run id is set. -/
structure RunCtx where
  runId : Option String
  strict : Bool
  nowStamp : String

/-- run_id resolution of _write_validation_report line 192: a falsy (unset
or empty) run id falls back to the utcnow timestamp. -/
def runIdOf (ctx : RunCtx) : String :=
  match ctx.runId with
  | some r => if r = "" then ctx.nowStamp else r
  | none => ctx.nowStamp

/-- A persisted validation report (utils_io.py lines 190-206): keyed by run
id and dataset, holding the failure cases, at the derived report path. -/
structure VReport where
  run_id : String
  dataset : String
  failures : List PFailure
  path : String
  deriving DecidableEq, Repr

/-- The filesystem effects of the writer: validation reports and written
CSV files (path, frame). -/
structure IOState where
  reports : List VReport
  writes : List (String × PFrame)
  deriving DecidableEq, Repr

/-- safe_write_csv (utils_io.py lines 137-146): the frame is written
atomically at the sanitized path; the row count is returned. -/
def safe_write_csv (st : IOState) (df : PFrame) (path : String) :
    IOState × Nat :=
  ({ st with writes := st.writes ++ [(sanitize_filename path, df)] },
    df.nrows)

/-- _write_validation_report (utils_io.py lines 190-206). -/
def write_validation_report (ctx : RunCtx) (st : IOState) (dataset : String)
    (fs : List PFailure) : IOState :=
  let rid := runIdOf ctx
  { st with
    reports := st.reports ++
      [⟨rid, dataset, fs,
        "validation_" ++ rid ++ "_" ++ sanitize_filename dataset ++
          ".json"⟩] }

/-- Embedding of validate_and_write (utils_io.py lines 209-234):
datasets without a declared schema and empty frames are written without
validation; otherwise the frame is validated lazily; on failure a report is
always persisted, then strict mode re-raises (writing nothing) while
non-strict mode writes the unvalidated frame; on success the validated
frame is written. The returned number is the row count written. -/
def validate_and_write (ctx : RunCtx) (st : IOState) (dataset : String)
    (df : PFrame) (path : String) : IOState × Except String Nat :=
  match get_schema dataset with
  | none =>
    let r := safe_write_csv st df path
    (r.1, Except.ok r.2)
  | some schema =>
    if pframeEmpty df then
      let r := safe_write_csv st df path
      (r.1, Except.ok r.2)
    else
      match schemaValidate schema df true with
      | Except.ok validated =>
        let r := safe_write_csv st validated path
        (r.1, Except.ok r.2)
      | Except.error fs =>
        let st1 := write_validation_report ctx st dataset fs
        if ctx.strict then (st1, Except.error "SchemaErrors")
        else
          let r := safe_write_csv st1 df path
          (r.1, Except.ok r.2)

/-- C8: when a non-empty frame with a declared schema fails validation,
validate_and_write always persists one structured report keyed by the run
id and the dataset name; in strict mode it then re-raises and writes no
data; in non-strict mode it writes the unvalidated frame at the sanitized
path and returns its row count. -/
theorem C8_validate_and_write_failure (ctx : RunCtx) (st : IOState)
    (dataset path : String) (df : PFrame) (schema : PSchema)
    (fs : List PFailure)
    (hs : get_schema dataset = some schema)
    (hne : pframeEmpty df = false)
    (hv : schemaValidate schema df true = Except.error fs) :
    (validate_and_write ctx st dataset df path).1.reports =
        st.reports ++
          [⟨runIdOf ctx, dataset, fs,
            "validation_" ++ runIdOf ctx ++ "_" ++
              sanitize_filename dataset ++ ".json"⟩] ∧
      (ctx.strict = true →
        (validate_and_write ctx st dataset df path).1.writes = st.writes ∧
          (validate_and_write ctx st dataset df path).2 =
            Except.error "SchemaErrors") ∧
      (ctx.strict = false →
        (validate_and_write ctx st dataset df path).1.writes =
            st.writes ++ [(sanitize_filename path, df)] ∧
          (validate_and_write ctx st dataset df path).2 =
            Except.ok df.nrows) := by
  have hmain : validate_and_write ctx st dataset df path =
      (if ctx.strict then
        (write_validation_report ctx st dataset fs,
          Except.error "SchemaErrors")
      else
        ((safe_write_csv (write_validation_report ctx st dataset fs) df
            path).1,
          Except.ok (safe_write_csv (write_validation_report ctx st dataset
            fs) df path).2)) := by
    simp only [validate_and_write, hs, hne, hv, Bool.false_eq_true,
      if_false]
  cases hst : ctx.strict with
  | true =>
    rw [hmain, if_pos hst]
    exact ⟨rfl, fun _ => ⟨rfl, rfl⟩, fun hc => absurd hc (by decide)⟩
  | false =>
    rw [hmain, if_neg (by rw [hst]; exact Bool.false_ne_true)]
    exact ⟨rfl, fun hc => absurd hc (by decide), fun _ => ⟨rfl, rfl⟩⟩

/-- Witness for C8 at a concrete failing ventas frame: the periodo is five
characters and the mwh value is non-numeric, so validation fails; both the
strict and the non-strict outcomes are exercised. -/
theorem C8_witness :
    (validate_and_write ⟨some "runA", true, "ts"⟩ ⟨[], []⟩
        "ventas_mensual_mwh"
        ⟨1, [("cliente", [PValue.text "A"]),
             ("periodo", [PValue.text "20251"]),
             ("anio", [PValue.num 2025]),
             ("mes", [PValue.num 1]),
             ("mwh", [PValue.text "abc"])]⟩
        "ventas_mensual_mwh.csv").1.reports =
      [⟨"runA", "ventas_mensual_mwh",
        [⟨"periodo", "str_length_6_6", [0]⟩, ⟨"mwh", "ge_0", [0]⟩],
        "validation_runA_ventas_mensual_mwh.json"⟩] ∧
    (validate_and_write ⟨some "runA", true, "ts"⟩ ⟨[], []⟩
        "ventas_mensual_mwh"
        ⟨1, [("cliente", [PValue.text "A"]),
             ("periodo", [PValue.text "20251"]),
             ("anio", [PValue.num 2025]),
             ("mes", [PValue.num 1]),
             ("mwh", [PValue.text "abc"])]⟩
        "ventas_mensual_mwh.csv").1.writes = [] := by
  have h := C8_validate_and_write_failure ⟨some "runA", true, "ts"⟩ ⟨[], []⟩
    "ventas_mensual_mwh" "ventas_mensual_mwh.csv"
    ⟨1, [("cliente", [PValue.text "A"]),
         ("periodo", [PValue.text "20251"]),
         ("anio", [PValue.num 2025]),
         ("mes", [PValue.num 1]),
         ("mwh", [PValue.text "abc"])]⟩
    (((SCHEMAS.find? (fun p => p.1 = "ventas_mensual_mwh")).map
      Prod.snd).getD ⟨[], false⟩)
    [⟨"periodo", "str_length_6_6", [0]⟩, ⟨"mwh", "ge_0", [0]⟩]
    (by decide) (by decide) (by decide)
  exact ⟨h.1, (h.2.1 rfl).1⟩

/- ===================================================================
   Validation completeness in lazy mode (claim C9)
   =================================================================== -/

/-- The failure one check contributes on a coerced series, if any. -/
def chkFailure (name : String) (series1 : List PValue) (chk : PCheck) :
    Option PFailure :=
  if idxWhere (fun b => b = false) (applyCheck chk series1) = [] then none
  else
    some ⟨name, checkNameOf chk,
      idxWhere (fun b => b = false) (applyCheck chk series1)⟩

/-- The failures the stub's validate collects for one column, as a function
of the frame: the missing-column failure, the non-null failure, and one
failure per check with failing indices. -/
def colFailuresOf (sc : Bool) (df : PFrame) (name : String)
    (col : PColumn) : List PFailure :=
  match pframeGet df name with
  | none => [⟨name, "required", []⟩]
  | some series =>
    let series1 := if col.coerce || sc then series.map (coerceValue col.dtype)
      else series
    let naIdx := idxWhere pvIsNa series1
    (if !col.nullable && !naIdx.isEmpty then [⟨name, "non_null", naIdx⟩]
      else []) ++ col.checks.filterMap (chkFailure name series1)

lemma colFailuresOf_column (sc : Bool) (df : PFrame) (name : String)
    (col : PColumn) :
    ∀ f ∈ colFailuresOf sc df name col, f.column = name := by
  intro f hf
  rw [colFailuresOf] at hf
  cases hg : pframeGet df name with
  | none =>
    rw [hg] at hf
    rw [List.mem_singleton] at hf
    rw [hf]
  | some series =>
    rw [hg] at hf
    rcases List.mem_append.mp hf with hf | hf
    · by_cases hn :
          (!col.nullable &&
            !(idxWhere pvIsNa
              (if col.coerce || sc then series.map (coerceValue col.dtype)
                else series)).isEmpty) = true
      · rw [if_pos hn, List.mem_singleton] at hf
        rw [hf]
      · rw [if_neg hn] at hf
        simp at hf
    · obtain ⟨chk, _, hchk⟩ := List.mem_filterMap.mp hf
      rw [chkFailure] at hchk
      by_cases hfi :
          idxWhere (fun b => b = false)
            (applyCheck chk
              (if col.coerce || sc then series.map (coerceValue col.dtype)
                else series)) = []
      · rw [if_pos hfi] at hchk
        cases hchk
      · rw [if_neg hfi, Option.some_inj] at hchk
        rw [← hchk]

lemma checksLoop_lazy (name : String) (series1 : List PValue) :
    ∀ (checks : List PCheck) (fs : List PFailure),
      checksLoop true name series1 checks fs =
        Except.ok (fs ++ checks.filterMap (chkFailure name series1)) := by
  intro checks
  induction checks with
  | nil => intro fs; simp [checksLoop]
  | cons chk rest ih =>
    intro fs
    rw [checksLoop]
    by_cases hfi :
        idxWhere (fun b => b = false) (applyCheck chk series1) = []
    · rw [if_pos hfi, ih fs, List.filterMap_cons, chkFailure, if_pos hfi]
    · rw [if_neg hfi, if_pos rfl, ih, List.filterMap_cons, chkFailure,
        if_neg hfi]
      rw [List.append_assoc]
      rfl

lemma find_set_ne (name : String) (v : List PValue) (n : String)
    (h : n ≠ name) :
    ∀ cols : List (String × List PValue),
      (cols.map fun p => if p.1 = name then (name, v) else p).find?
          (fun p => p.1 = n) =
        cols.find? (fun p => p.1 = n) := by
  intro cols
  induction cols with
  | nil => rfl
  | cons p rest ih =>
    rw [List.map_cons]
    by_cases hp : p.1 = name
    · rw [if_pos hp]
      rw [List.find?_cons_of_neg _ (by simp [Ne.symm h]),
        List.find?_cons_of_neg _ (by simp [hp, Ne.symm h]), ih]
    · rw [if_neg hp]
      by_cases hn : p.1 = n
      · rw [List.find?_cons_of_pos _ (by simp [hn]),
          List.find?_cons_of_pos _ (by simp [hn])]
      · rw [List.find?_cons_of_neg _ (by simp [hn]),
          List.find?_cons_of_neg _ (by simp [hn]), ih]

lemma pframeGet_set_ne (df : PFrame) (name : String) (v : List PValue)
    (n : String) (h : n ≠ name) :
    pframeGet (pframeSet df name v) n = pframeGet df n := by
  rw [pframeGet, pframeSet, pframeGet]
  rw [find_set_ne name v n h df.cols]

lemma colFailuresOf_congr (sc : Bool) {dfA dfB : PFrame} (name : String)
    (col : PColumn) (h : pframeGet dfA name = pframeGet dfB name) :
    colFailuresOf sc dfA name col = colFailuresOf sc dfB name col := by
  rw [colFailuresOf, colFailuresOf, h]

lemma flatMap_congr {α β : Type} (f g : α → List β) :
    ∀ l : List α, (∀ x ∈ l, f x = g x) → l.flatMap f = l.flatMap g := by
  intro l
  induction l with
  | nil => intro _; rfl
  | cons a t ih =>
    intro h
    rw [List.flatMap_cons, List.flatMap_cons, h a (by simp),
      ih fun x hx => h x (by simp [hx])]

lemma validateCols_lazy (sc : Bool) :
    ∀ (cols : List (String × PColumn)) (df : PFrame) (fs : List PFailure),
      (cols.map Prod.fst).Nodup →
      ∃ df2,
        validateCols sc true cols df fs =
          Except.ok (df2,
            fs ++ cols.flatMap fun p => colFailuresOf sc df p.1 p.2) ∧
        ∀ n, n ∉ cols.map Prod.fst → pframeGet df2 n = pframeGet df n := by
  intro cols
  induction cols with
  | nil =>
    intro df fs _
    refine ⟨df, ?_, fun n _ => rfl⟩
    simp [validateCols]
  | cons pc rest ih =>
    obtain ⟨name, col⟩ := pc
    intro df fs hnodup
    rw [List.map_cons, List.nodup_cons] at hnodup
    obtain ⟨hname, hrest⟩ := hnodup
    cases hg : pframeGet df name with
    | none =>
      obtain ⟨df2, heq, hget⟩ := ih df (fs ++ [⟨name, "required", []⟩]) hrest
      refine ⟨df2, ?_, ?_⟩
      · have hstep : validateCols sc true ((name, col) :: rest) df fs =
            validateCols sc true rest df (fs ++ [⟨name, "required", []⟩]) := by
          simp only [validateCols, hg, if_true]
        rw [hstep, heq, List.flatMap_cons, colFailuresOf, hg,
          List.append_assoc]
      · intro n hn
        rw [List.map_cons, List.mem_cons] at hn
        exact hget n fun hc => hn (Or.inr hc)
    | some series =>
      have hpne : ∀ p, p ∈ rest → p.1 ≠ name := by
        intro p hp hc
        exact hname (hc ▸ List.mem_map.mpr ⟨p, hp, rfl⟩)
      have hdf1get : ∀ n, n ≠ name →
          pframeGet (if col.coerce || sc then
            pframeSet df name
              (series.map (coerceValue col.dtype)) else df) n =
            pframeGet df n := by
        intro n hn
        by_cases hdc : (col.coerce || sc) = true
        · rw [if_pos hdc, pframeGet_set_ne df name _ n hn]
        · rw [if_neg hdc]
      have hflat : rest.flatMap
            (fun p => colFailuresOf sc
              (if col.coerce || sc then
                pframeSet df name (series.map (coerceValue col.dtype))
               else df) p.1 p.2) =
          rest.flatMap (fun p => colFailuresOf sc df p.1 p.2) := by
        apply flatMap_congr
        intro p hp
        exact colFailuresOf_congr sc p.1 p.2 (hdf1get p.1 (hpne p hp))
      by_cases hnf :
          (!col.nullable &&
            !(idxWhere pvIsNa
              (if col.coerce || sc then series.map (coerceValue col.dtype)
                else series)).isEmpty) = true
      · have hstep : validateCols sc true ((name, col) :: rest) df fs =
            validateCols sc true rest
              (if col.coerce || sc then
                pframeSet df name (series.map (coerceValue col.dtype))
               else df)
              ((fs ++
                [⟨name, "non_null",
                  idxWhere pvIsNa
                    (if col.coerce || sc then
                      series.map (coerceValue col.dtype) else series)⟩]) ++
                col.checks.filterMap
                  (chkFailure name
                    (if col.coerce || sc then
                      series.map (coerceValue col.dtype) else series))) := by
          simp only [validateCols, hg, hnf, Bool.not_true, Bool.and_false,
            Bool.false_eq_true, if_false, if_true, checksLoop_lazy]
          cases hdc : col.coerce || sc <;> simp [hdc]
        obtain ⟨df2, heq, hget⟩ := ih
          (if col.coerce || sc then
            pframeSet df name (series.map (coerceValue col.dtype)) else df)
          ((fs ++
            [⟨name, "non_null",
              idxWhere pvIsNa
                (if col.coerce || sc then
                  series.map (coerceValue col.dtype) else series)⟩]) ++
            col.checks.filterMap
              (chkFailure name
                (if col.coerce || sc then
                  series.map (coerceValue col.dtype) else series)))
          hrest
        refine ⟨df2, ?_, ?_⟩
        · have hcol : colFailuresOf sc df name col =
              [⟨name, "non_null",
                idxWhere pvIsNa
                  (if col.coerce || sc then
                    series.map (coerceValue col.dtype) else series)⟩] ++
                col.checks.filterMap
                  (chkFailure name
                    (if col.coerce || sc then
                      series.map (coerceValue col.dtype) else series)) := by
            simp only [colFailuresOf, hg]
            rw [if_pos hnf]
          rw [hstep, heq, hflat, List.flatMap_cons, hcol]
          simp [List.append_assoc]
        · intro n hn
          rw [List.map_cons, List.mem_cons] at hn
          rw [hget n fun hc => hn (Or.inr hc)]
          exact hdf1get n fun hc => hn (Or.inl hc)
      · have hnf' :
            (!col.nullable &&
              !(idxWhere pvIsNa
                (if col.coerce || sc then series.map (coerceValue col.dtype)
                  else series)).isEmpty) = false := by
          cases h : (!col.nullable &&
              !(idxWhere pvIsNa
                (if col.coerce || sc then series.map (coerceValue col.dtype)
                  else series)).isEmpty)
          · rfl
          · exact absurd h hnf
        have hstep : validateCols sc true ((name, col) :: rest) df fs =
            validateCols sc true rest
              (if col.coerce || sc then
                pframeSet df name (series.map (coerceValue col.dtype))
               else df)
              (fs ++
                col.checks.filterMap
                  (chkFailure name
                    (if col.coerce || sc then
                      series.map (coerceValue col.dtype) else series))) := by
          simp only [validateCols, hg, hnf', Bool.not_true, Bool.and_false,
            Bool.false_eq_true, Bool.false_and, if_false, if_true,
            checksLoop_lazy]
          cases hdc : col.coerce || sc <;> simp [hdc]
        obtain ⟨df2, heq, hget⟩ := ih
          (if col.coerce || sc then
            pframeSet df name (series.map (coerceValue col.dtype)) else df)
          (fs ++
            col.checks.filterMap
              (chkFailure name
                (if col.coerce || sc then
                  series.map (coerceValue col.dtype) else series)))
          hrest
        refine ⟨df2, ?_, ?_⟩
        · have hcol : colFailuresOf sc df name col =
              col.checks.filterMap
                (chkFailure name
                  (if col.coerce || sc then
                    series.map (coerceValue col.dtype) else series)) := by
            simp only [colFailuresOf, hg]
            rw [if_neg hnf]
            rw [List.nil_append]
          rw [hstep, heq, hflat, List.flatMap_cons, hcol]
          simp [List.append_assoc]
        · intro n hn
          rw [List.map_cons, List.mem_cons] at hn
          rw [hget n fun hc => hn (Or.inr hc)]
          exact hdf1get n fun hc => hn (Or.inl hc)

/-- C9: schema validation in lazy mode is complete, not
first-failure-only: for every frame and schema with distinct column names,
if two different columns each produce a failure (for example a non-numeric
value in a numeric column and a period code of the wrong length), the
raised error lists failure cases for both columns. -/
theorem C9_validation_collects_all (schema : PSchema) (df : PFrame)
    (hnodup : (schema.columns.map Prod.fst).Nodup)
    (c1 c2 : String) (col1 col2 : PColumn)
    (h1 : (c1, col1) ∈ schema.columns) (h2 : (c2, col2) ∈ schema.columns)
    (hne : c1 ≠ c2)
    (hf1 : colFailuresOf schema.coerce df c1 col1 ≠ [])
    (hf2 : colFailuresOf schema.coerce df c2 col2 ≠ []) :
    ∃ fs, schemaValidate schema df true = Except.error fs ∧
      (∃ f ∈ fs, f.column = c1) ∧ (∃ f ∈ fs, f.column = c2) := by
  obtain ⟨df2, heq, _⟩ := validateCols_lazy schema.coerce schema.columns df
    [] hnodup
  have hsub1 : ∀ f ∈ colFailuresOf schema.coerce df c1 col1,
      f ∈ schema.columns.flatMap
        (fun p => colFailuresOf schema.coerce df p.1 p.2) := by
    intro f hf
    exact List.mem_flatMap.mpr ⟨(c1, col1), h1, hf⟩
  have hsub2 : ∀ f ∈ colFailuresOf schema.coerce df c2 col2,
      f ∈ schema.columns.flatMap
        (fun p => colFailuresOf schema.coerce df p.1 p.2) := by
    intro f hf
    exact List.mem_flatMap.mpr ⟨(c2, col2), h2, hf⟩
  obtain ⟨f1, hf1m⟩ := List.exists_mem_of_ne_nil _ hf1
  obtain ⟨f2, hf2m⟩ := List.exists_mem_of_ne_nil _ hf2
  have hflatne : schema.columns.flatMap
      (fun p => colFailuresOf schema.coerce df p.1 p.2) ≠ [] :=
    List.ne_nil_of_mem (hsub1 f1 hf1m)
  refine ⟨schema.columns.flatMap
    (fun p => colFailuresOf schema.coerce df p.1 p.2), ?_, ?_, ?_⟩
  · rw [schemaValidate, heq]
    show (if ([] ++ schema.columns.flatMap
          (fun p => colFailuresOf schema.coerce df p.1 p.2)) =
          ([] : List PFailure) then
        Except.ok df2
      else
        Except.error ([] ++ schema.columns.flatMap
          (fun p => colFailuresOf schema.coerce df p.1 p.2))) =
      Except.error (schema.columns.flatMap
        (fun p => colFailuresOf schema.coerce df p.1 p.2))
    rw [List.nil_append, if_neg hflatne]
  · exact ⟨f1, hsub1 f1 hf1m,
      colFailuresOf_column schema.coerce df c1 col1 f1 hf1m⟩
  · exact ⟨f2, hsub2 f2 hf2m,
      colFailuresOf_column schema.coerce df c2 col2 f2 hf2m⟩

/-- Witness for C9 at the ventas schema and a frame with two independent
violations, a five-character periodo and a non-numeric mwh: the raised
error lists a failure for each of the two columns. -/
theorem C9_witness :
    ∃ fs, schemaValidate
        (((SCHEMAS.find? (fun p => p.1 = "ventas_mensual_mwh")).map
          Prod.snd).getD ⟨[], false⟩)
        ⟨1, [("cliente", [PValue.text "A"]),
             ("periodo", [PValue.text "20251"]),
             ("anio", [PValue.num 2025]),
             ("mes", [PValue.num 1]),
             ("mwh", [PValue.text "abc"])]⟩ true = Except.error fs ∧
      (∃ f ∈ fs, f.column = "periodo") ∧ (∃ f ∈ fs, f.column = "mwh") :=
  C9_validation_collects_all
    (((SCHEMAS.find? (fun p => p.1 = "ventas_mensual_mwh")).map
      Prod.snd).getD ⟨[], false⟩)
    ⟨1, [("cliente", [PValue.text "A"]),
         ("periodo", [PValue.text "20251"]),
         ("anio", [PValue.num 2025]),
         ("mes", [PValue.num 1]),
         ("mwh", [PValue.text "abc"])]⟩
    (by decide) "periodo" "mwh"
    ⟨PDType.string, false, true, [PCheck.strLength 6 6]⟩
    ⟨PDType.float64, true, true, [PCheck.ge 0]⟩
    (by decide) (by decide) (by decide) (by decide) (by decide)

end Egasa
